import Mathlib

/-!
The particle pool of `src/main.cpp`

A shallow embedding of the particle pool engine of the OpenGL particle demo:
the emission loop, the attractor loop, the per-frame update-and-fill loop and
the index table setup, followed by theorems about them.

Numeric model.  A C++ `float` is a value of `Flt`: either a rational number
(`Flt.fin q`) or `Flt.nan`, the result of a division by zero; `nan` is absorbing
for arithmetic and every comparison with it is false, as for an IEEE
not-a-number.  In the loops of the pool the arithmetic on `Flt` is exact.  The
lifetime update of one slot is given a second time with the subtraction rounded
to the nearest `float` (`roundF32`, `lifetimeUpdate`): that is where rounding
decides what happens.  `unsigned int`
values are natural numbers reduced modulo `2 ^ 32` after every operation.
Arrays are functions from the index to the element.  A loop
`for (int i = 0; i < n; i++)` is a function of the number of iterations done,
defined by recursion on it.  The C library generator `rand()` is a stream
`Ext.rand` indexed by the number of calls made so far, and the square root,
cosine and sine of the C/glm library are fields of `Ext`.
-/

set_option autoImplicit false

namespace ParticleSystem

/-! ## Numbers -/

/-- A `float`: an exact rational, or not-a-number. -/
inductive Flt where
  | fin (q : ℚ)
  | nan
  deriving DecidableEq

namespace Flt

/-- Addition of floats. -/
def add : Flt → Flt → Flt
  | fin a, fin b => fin (a + b)
  | _, _ => nan

/-- Subtraction of floats. -/
def sub : Flt → Flt → Flt
  | fin a, fin b => fin (a - b)
  | _, _ => nan

/-- Multiplication of floats. -/
def mul : Flt → Flt → Flt
  | fin a, fin b => fin (a * b)
  | _, _ => nan

/-- Division of floats, guarded: a zero divisor gives no finite number. -/
def div : Flt → Flt → Flt
  | fin a, fin b => if b = 0 then nan else fin (a / b)
  | _, _ => nan

/-- Unary minus. -/
def neg : Flt → Flt
  | fin a => fin (-a)
  | nan => nan

instance : Add Flt := ⟨add⟩
instance : Sub Flt := ⟨sub⟩
instance : Mul Flt := ⟨mul⟩
instance : Div Flt := ⟨div⟩
instance : Neg Flt := ⟨neg⟩

/-- The comparison `a <= b` of the C++ code. -/
def le : Flt → Flt → Bool
  | fin a, fin b => decide (a ≤ b)
  | _, _ => false

/-- The comparison `a > b` of the C++ code. -/
def gt : Flt → Flt → Bool
  | fin a, fin b => decide (b < a)
  | _, _ => false

/-- Conversion of an `int` to `float`. -/
def ofInt (n : Int) : Flt := fin n

/-- Conversion of a non-negative integer to `float`. -/
def ofNat (n : Nat) : Flt := fin n

/-- The literal `0`. -/
def zero : Flt := fin 0

/-- The literal `1`. -/
def one : Flt := fin 1

/-- The literal `.5f`. -/
def half : Flt := fin (1 / 2)

end Flt

/-- The modulus of `unsigned int` arithmetic. -/
def U32 : Nat := 2 ^ 32

/-- Unsigned addition. -/
def u32add (a b : Nat) : Nat := (a + b) % U32

/-- Unsigned subtraction. -/
def u32sub (a b : Nat) : Nat := (a + (U32 - b % U32)) % U32

/-! ## Vectors -/

/-- A `glm::vec2`. -/
structure Vec2 where
  x : Flt
  y : Flt
  deriving DecidableEq

/-- A `glm::vec4`. -/
structure Vec4 where
  x : Flt
  y : Flt
  z : Flt
  w : Flt
  deriving DecidableEq

/-- A `glm::mat4`, stored by columns. -/
structure Mat4 where
  c0 : Vec4
  c1 : Vec4
  c2 : Vec4
  c3 : Vec4

/-- The `Vertex` struct of the source. -/
structure Vertex where
  pos : Vec4
  color : Vec4
  deriving DecidableEq

namespace Vec2

/-- Componentwise sum. -/
def add (a b : Vec2) : Vec2 := ⟨a.x + b.x, a.y + b.y⟩

/-- Componentwise difference. -/
def sub (a b : Vec2) : Vec2 := ⟨a.x - b.x, a.y - b.y⟩

/-- The product `s * v` of a scalar and a vector. -/
def smul (s : Flt) (v : Vec2) : Vec2 := ⟨s * v.x, s * v.y⟩

/-- The product `v * s` of a vector and a scalar. -/
def muls (v : Vec2) (s : Flt) : Vec2 := ⟨v.x * s, v.y * s⟩

/-- The quotient `v / s` of a vector by a scalar. -/
def divs (v : Vec2) (s : Flt) : Vec2 := ⟨v.x / s, v.y / s⟩

/-- The `glm::dot` product. -/
def dot (a b : Vec2) : Flt := a.x * b.x + a.y * b.y

instance : Add Vec2 := ⟨add⟩
instance : Sub Vec2 := ⟨sub⟩

end Vec2

namespace Vec4

/-- Componentwise sum. -/
def add (a b : Vec4) : Vec4 := ⟨a.x + b.x, a.y + b.y, a.z + b.z, a.w + b.w⟩

/-- Componentwise difference. -/
def sub (a b : Vec4) : Vec4 := ⟨a.x - b.x, a.y - b.y, a.z - b.z, a.w - b.w⟩

/-- The product `s * v` of a scalar and a vector. -/
def smul (s : Flt) (v : Vec4) : Vec4 := ⟨s * v.x, s * v.y, s * v.z, s * v.w⟩

/-- The product `v * s` of a vector and a scalar. -/
def muls (v : Vec4) (s : Flt) : Vec4 := ⟨v.x * s, v.y * s, v.z * s, v.w * s⟩

instance : Add Vec4 := ⟨add⟩
instance : Sub Vec4 := ⟨sub⟩

end Vec4

/-- The matrix-vector product `m * v` of glm:
`(m[0] * v[0] + m[1] * v[1]) + (m[2] * v[2] + m[3] * v[3])`. -/
def Mat4.mulVec (m : Mat4) (v : Vec4) : Vec4 :=
  (m.c0.muls v.x + m.c1.muls v.y) + (m.c2.muls v.z + m.c3.muls v.w)

/-! ## Settings and external functions -/

/-- The settings of the source (lines 12-38), `background_color` and the window
width apart, which no modelled loop reads. -/
structure Config where
  bounce : Bool
  bounce_damping : Flt
  friction : Flt
  pool_size : Nat
  emit_batch_size : Int
  lifetime : Flt
  color_begin : Vec4
  color_end : Vec4
  size_begin : Flt
  size_end : Flt
  size_variation : Flt
  velocity_variation : Flt
  rotation_variation : Flt
  lifetime_variation : Flt
  gravity : Flt

/-- The values the settings have in the source. -/
def settings : Config where
  bounce := true
  bounce_damping := Flt.fin (3 / 4)
  friction := Flt.fin (19 / 20)
  pool_size := 6000
  emit_batch_size := 120
  lifetime := Flt.fin 1
  color_begin := ⟨Flt.fin (1 / 5), Flt.fin (2 / 5), Flt.fin 1, Flt.fin 1⟩
  color_end := ⟨Flt.fin 1, Flt.fin 1, Flt.fin 1, Flt.fin (1 / 5)⟩
  size_begin := Flt.fin 25
  size_end := Flt.fin 5
  size_variation := Flt.fin 5
  velocity_variation := Flt.fin 600
  rotation_variation := Flt.fin 14
  lifetime_variation := Flt.fin 2
  gravity := Flt.fin 2000

/-- What the program takes from the C library and glm: the constant `RAND_MAX`,
the values `rand()` returns (by call number), and `sqrt`, `cos`, `sin`. -/
structure Ext where
  RAND_MAX : Nat
  rand : Nat → Nat
  sqrt : Flt → Flt
  cos : Flt → Flt
  sin : Flt → Flt

/-- The function `randf` of the source at call number `k` of `rand()`:
`rand() / static_cast<float>(RAND_MAX)`. -/
def randf (ext : Ext) (k : Nat) : Flt :=
  Flt.ofNat (ext.rand k) / Flt.ofNat ext.RAND_MAX

/-- The function `glm::length`: `sqrt(dot(v, v))`. -/
def length (ext : Ext) (v : Vec2) : Flt := ext.sqrt (Vec2.dot v v)

/-- The function `glm::inversesqrt`: `1 / sqrt(x)`. -/
def inversesqrt (ext : Ext) (x : Flt) : Flt := Flt.one / ext.sqrt x

/-- The function `glm::normalize`: `v * inversesqrt(dot(v, v))`. -/
def normalize (ext : Ext) (v : Vec2) : Vec2 := v.muls (inversesqrt ext (Vec2.dot v v))

/-- The matrix `glm::rotate(glm::mat4(1.0f), angle, axis)` for the unit axis
`(0, 0, 1)` the source passes, from glm's formula with `c = cos(angle)`,
`s = sin(angle)`, `temp = (1 - c) * axis`. -/
def rotate (ext : Ext) (angle : Flt) : Mat4 :=
  let c := ext.cos angle
  let s := ext.sin angle
  let a0 := Flt.zero
  let a1 := Flt.zero
  let a2 := Flt.one
  let t0 := (Flt.one - c) * a0
  let t1 := (Flt.one - c) * a1
  let t2 := (Flt.one - c) * a2
  let r00 := c + t0 * a0
  let r01 := t0 * a1 + s * a2
  let r02 := t0 * a2 - s * a1
  let r10 := t1 * a0 - s * a2
  let r11 := c + t1 * a1
  let r12 := t1 * a2 + s * a0
  let r20 := t2 * a0 + s * a1
  let r21 := t2 * a1 - s * a0
  let r22 := c + t2 * a2
  let e0 : Vec4 := ⟨Flt.one, Flt.zero, Flt.zero, Flt.zero⟩
  let e1 : Vec4 := ⟨Flt.zero, Flt.one, Flt.zero, Flt.zero⟩
  let e2 : Vec4 := ⟨Flt.zero, Flt.zero, Flt.one, Flt.zero⟩
  let e3 : Vec4 := ⟨Flt.zero, Flt.zero, Flt.zero, Flt.one⟩
  { c0 := (e0.muls r00 + e1.muls r01) + e2.muls r02
    c1 := (e0.muls r10 + e1.muls r11) + e2.muls r12
    c2 := (e0.muls r20 + e1.muls r21) + e2.muls r22
    c3 := e3 }

/-! ## Program state -/

/-- The particle system globals of the source (lines 127-145), with the number
of calls made to `rand()` so far. -/
structure State where
  buffer_size : Nat
  emit_index : Nat
  vertices : Nat → Vertex
  indices : Nat → Nat
  active_states : Nat → Bool
  positions : Nat → Vec2
  velocities : Nat → Vec2
  begin_sizes : Nat → Flt
  end_sizes : Nat → Flt
  begin_rotations : Nat → Flt
  rotations : Nat → Flt
  lifetimes : Nat → Flt
  rand_calls : Nat

/-- The array assignment `a[i] = v`. -/
def write {α : Type} (a : Nat → α) (i : Nat) (v : α) : Nat → α :=
  fun j => if j = i then v else a j

/-- The zero vertex. -/
def Vertex.zero : Vertex :=
  ⟨⟨Flt.zero, Flt.zero, Flt.zero, Flt.zero⟩, ⟨Flt.zero, Flt.zero, Flt.zero, Flt.zero⟩⟩

/-- The globals at program start: static storage is zero-initialised, and
`emit_index = pool_size - 1`. -/
def start (cfg : Config) : State where
  buffer_size := 0
  emit_index := u32sub cfg.pool_size 1
  vertices := fun _ => Vertex.zero
  indices := fun _ => 0
  active_states := fun _ => false
  positions := fun _ => ⟨Flt.zero, Flt.zero⟩
  velocities := fun _ => ⟨Flt.zero, Flt.zero⟩
  begin_sizes := fun _ => Flt.zero
  end_sizes := fun _ => Flt.zero
  begin_rotations := fun _ => Flt.zero
  rotations := fun _ => Flt.zero
  lifetimes := fun _ => Flt.zero
  rand_calls := 0

/-- The index table setup loop (lines 243-250) after its first `n` iterations. -/
def setupIndices : Nat → State → State
  | 0, s => s
  | i + 1, s =>
    let s := setupIndices i s
    let a := s.indices
    let a := write a (6 * i + 0) ((4 * i + 0) % U32)
    let a := write a (6 * i + 1) ((4 * i + 1) % U32)
    let a := write a (6 * i + 2) ((4 * i + 2) % U32)
    let a := write a (6 * i + 3) ((4 * i + 1) % U32)
    let a := write a (6 * i + 4) ((4 * i + 2) % U32)
    let a := write a (6 * i + 5) ((4 * i + 3) % U32)
    { s with indices := a }

/-- The loop that clears the active flags (lines 272-273) after its first `n`
iterations. -/
def clearActive : Nat → State → State
  | 0, s => s
  | i + 1, s =>
    let s := clearActive i s
    { s with active_states := write s.active_states i false }

/-- The state when the frame loop is entered. -/
def init (cfg : Config) : State :=
  clearActive cfg.pool_size (setupIndices cfg.pool_size (start cfg))

/-! ## Emission (lines 301-322) -/

/-- The body of the emission loop: one particle is written to the slot
`emit_index`, then the index is shifted.  The nine `randf()` calls are taken in
the order they are written. -/
def emitParticle (cfg : Config) (ext : Ext) (mouse prev_mouse : Vec2) (s : State) : State :=
  let e := s.emit_index
  let k := s.rand_calls
  { s with
    active_states := write s.active_states e true
    begin_sizes := write s.begin_sizes e
      (cfg.size_begin + cfg.size_variation * (randf ext k - Flt.half))
    end_sizes := write s.end_sizes e
      (cfg.size_end + cfg.size_variation * (randf ext (k + 1) - Flt.half))
    rotations := write s.rotations e
      (cfg.rotation_variation * (randf ext (k + 2) - Flt.half))
    begin_rotations := write s.begin_rotations e
      (cfg.rotation_variation * (randf ext (k + 3) - Flt.half))
    velocities := write s.velocities e
      (Vec2.smul (cfg.velocity_variation * randf ext (k + 4))
        (normalize ext ⟨randf ext (k + 5) - Flt.half, randf ext (k + 6) - Flt.half⟩))
    lifetimes := write s.lifetimes e
      (cfg.lifetime + cfg.lifetime_variation * (randf ext (k + 7) - Flt.half))
    positions := write s.positions e
      (mouse + Vec2.smul (randf ext (k + 8)) (prev_mouse - mouse))
    emit_index := u32sub (u32add e cfg.pool_size) 1 % cfg.pool_size
    rand_calls := k + 9 }

/-- The state after `n` consecutive emissions; emission number `j` reads the
pointer positions `inp j = (mouse, prev_mouse)`. -/
def emitN (cfg : Config) (ext : Ext) (inp : Nat → Vec2 × Vec2) : Nat → State → State
  | 0, s => s
  | n + 1, s => emitParticle cfg ext (inp n).1 (inp n).2 (emitN cfg ext inp n s)

/-- The emission loop of one frame: `emit_batch_size` particles at one pointer
position. -/
def emitLoop (cfg : Config) (ext : Ext) (mouse prev_mouse : Vec2) (s : State) : State :=
  emitN cfg ext (fun _ => (mouse, prev_mouse)) cfg.emit_batch_size.toNat s

/-- The number of active slots of the pool. -/
def activeCount (cfg : Config) (s : State) : Nat :=
  (List.range cfg.pool_size).countP s.active_states

/-! ## Attraction (lines 327-339) -/

/-- The body of the attractor loop for slot `i`; `attractor` is the pointer
position read in this iteration. -/
def attractSlot (ext : Ext) (attractor : Vec2) (i : Nat) (s : State) : State :=
  if s.active_states i then
    { s with
      velocities := write s.velocities i
        (s.velocities i -
          (Vec2.smul (Flt.fin 100) (s.positions i - attractor)).divs
            (length ext (s.positions i - attractor))) }
  else s

/-- The attractor loop after its first `n` iterations; iteration `i` reads the
pointer position `cursor i`. -/
def attractLoop (ext : Ext) (cursor : Nat → Vec2) : Nat → State → State
  | 0, s => s
  | i + 1, s => attractSlot ext (cursor i) i (attractLoop ext cursor i s)

/-! ## Update and fill (lines 343-421) -/

/-- The normalized age `t = lifetimes[i] / lifetime` of the fill step. -/
def fillT (cfg : Config) (s : State) (i : Nat) : Flt := s.lifetimes i / cfg.lifetime

/-- The colour `pcolor` of the fill step. -/
def fillColor (cfg : Config) (s : State) (i : Nat) : Vec4 :=
  cfg.color_end + Vec4.smul (fillT cfg s i) (cfg.color_begin - cfg.color_end)

/-- The size `psize` of the fill step. -/
def fillSize (cfg : Config) (s : State) (i : Nat) : Flt :=
  s.end_sizes i + fillT cfg s i * (s.begin_sizes i - s.end_sizes i)

/-- The angle `rotation` of the fill step. -/
def fillRotation (cfg : Config) (s : State) (i : Nat) : Flt :=
  s.rotations i * fillT cfg s i + s.begin_rotations i

/-- The untransformed corner number `j` of the quad: `(-psize, -psize)`,
`(psize, -psize)`, `(-psize, psize)`, `(psize, psize)`, with `z = w = 0`. -/
def cornerOffset (psize : Flt) (j : Nat) : Vec4 :=
  match j with
  | 0 => ⟨-psize, -psize, Flt.zero, Flt.zero⟩
  | 1 => ⟨psize, -psize, Flt.zero, Flt.zero⟩
  | 2 => ⟨-psize, psize, Flt.zero, Flt.zero⟩
  | _ => ⟨psize, psize, Flt.zero, Flt.zero⟩

/-- Vertex number `j` of the four the fill step writes for slot `i`. -/
def quadVertex (cfg : Config) (ext : Ext) (s : State) (i j : Nat) : Vertex :=
  let ppos : Vec4 := ⟨(s.positions i).x, (s.positions i).y, Flt.zero, Flt.zero⟩
  { pos := ppos + (rotate ext (fillRotation cfg s i)).mulVec (cornerOffset (fillSize cfg s i) j)
    color := fillColor cfg s i }

/-- The state of the update-and-fill loop: the globals and the local
`vertex_ptr`, as an offset into `vertices`. -/
structure FillState where
  st : State
  vertex_ptr : Nat

/-- The body of the update-and-fill loop for slot `i`.  The float operations are
exact here; `lifetimeUpdate` has the lifetime update with rounding. -/
def updateSlot (cfg : Config) (ext : Ext) (height : Int) (delta_time : Flt) (i : Nat)
    (f : FillState) : FillState :=
  let s := f.st
  if s.active_states i then
    let s1 : State :=
      if Flt.gt cfg.lifetime Flt.zero then
        { s with lifetimes := write s.lifetimes i (s.lifetimes i - delta_time) }
      else s
    if Flt.gt cfg.lifetime Flt.zero && Flt.le (s1.lifetimes i) Flt.zero then
      { f with st := { s1 with active_states := write s1.active_states i false } }
    else
      let s2 : State :=
        { s1 with
          positions := write s1.positions i
            (s1.positions i + (s1.velocities i).muls delta_time) }
      let s3 : State :=
        { s2 with
          velocities := write s2.velocities i
            ⟨(s2.velocities i).x, (s2.velocities i).y + cfg.gravity * delta_time⟩ }
      let s4 : State :=
        if Flt.gt (s3.positions i).y (Flt.ofInt height) && cfg.bounce then
          { s3 with
            velocities := write s3.velocities i
              ⟨(s3.velocities i).x * cfg.friction,
               (s3.velocities i).y * (-cfg.bounce_damping * randf ext s3.rand_calls)⟩
            rand_calls := s3.rand_calls + 1 }
        else s3
      let p := f.vertex_ptr
      let v := s4.vertices
      let v := write v p (quadVertex cfg ext s4 i 0)
      let v := write v (p + 1) (quadVertex cfg ext s4 i 1)
      let v := write v (p + 2) (quadVertex cfg ext s4 i 2)
      let v := write v (p + 3) (quadVertex cfg ext s4 i 3)
      { st := { s4 with vertices := v, buffer_size := u32add s4.buffer_size 1 }
        vertex_ptr := p + 4 }
  else f

/-- The update-and-fill loop after its first `n` iterations. -/
def updateLoop (cfg : Config) (ext : Ext) (height : Int) (delta_time : Flt) :
    Nat → FillState → FillState
  | 0, f => f
  | i + 1, f => updateSlot cfg ext height delta_time i (updateLoop cfg ext height delta_time i f)

/-- The per-frame update-and-fill pass: `buffer_size = 0`, `vertex_ptr = vertices`,
then the loop over all slots. -/
def updateFill (cfg : Config) (ext : Ext) (height : Int) (delta_time : Flt) (s : State) :
    State :=
  (updateLoop cfg ext height delta_time cfg.pool_size
    ⟨{ s with buffer_size := 0 }, 0⟩).st

/-! ## The frame loop (lines 282-441) -/

/-- What one pass of the frame loop reads from outside the pool: the pointer
position, the two mouse buttons, the pointer position read in each iteration
of the attractor loop, the global `height`, and the value the variable
`delta_time` has during the frame. -/
structure FrameInput where
  mouse : Vec2
  left : Bool
  right : Bool
  cursor : Nat → Vec2
  height : Int
  delta_time : Flt

/-- The globals together with the local `prev_mouse` of `main`. -/
structure MainState where
  pool : State
  prev_mouse : Vec2

/-- One pass of the frame loop: emission when the left button is pressed,
attraction when the right button is pressed, then update and fill. -/
def frame (cfg : Config) (ext : Ext) (inp : FrameInput) (m : MainState) : MainState :=
  let s1 := if inp.left then emitLoop cfg ext inp.mouse m.prev_mouse m.pool else m.pool
  let s2 := if inp.right then attractLoop ext inp.cursor cfg.pool_size s1 else s1
  { pool := updateFill cfg ext inp.height inp.delta_time s2
    prev_mouse := inp.mouse }

/-- The state after the frames `inps 0`, ..., `inps (n - 1)`. -/
def frames (cfg : Config) (ext : Ext) (inps : Nat → FrameInput) : Nat → MainState → MainState
  | 0, m => m
  | n + 1, m => frame cfg ext (inps n) (frames cfg ext inps n m)

/-- The per-slot fields of slot `i`, the active flag apart. -/
structure Slot where
  position : Vec2
  velocity : Vec2
  begin_size : Flt
  end_size : Flt
  begin_rotation : Flt
  rotation : Flt
  lifetime : Flt
  deriving DecidableEq

/-- The fields of slot `i` of the pool. -/
def slotAt (s : State) (i : Nat) : Slot where
  position := s.positions i
  velocity := s.velocities i
  begin_size := s.begin_sizes i
  end_size := s.end_sizes i
  begin_rotation := s.begin_rotations i
  rotation := s.rotations i
  lifetime := s.lifetimes i

/-- Whether slot `i` of `s` is drawn by a pass with frame delta `delta_time`: it
is active and the lifetime test of the update (`lifetime > 0`, then
`lifetimes[i] - delta_time <= 0`) does not expire it. -/
def survives (cfg : Config) (delta_time : Flt) (s : State) (i : Nat) : Bool :=
  s.active_states i &&
    !(Flt.gt cfg.lifetime Flt.zero && Flt.le (s.lifetimes i - delta_time) Flt.zero)

/-- The number of slots below `n` a pass with frame delta `delta_time` draws. -/
def drawnBelow (cfg : Config) (delta_time : Flt) (s : State) (n : Nat) : Nat :=
  (List.range n).countP (survives cfg delta_time s)

/-- The slots of the pool that are active in `s`, in index order. -/
def activeSlots (cfg : Config) (s : State) : List Nat :=
  (List.range cfg.pool_size).filter s.active_states

/-- The state of the update-and-fill pass over `s` when the iteration for slot
`i` begins. -/
def beforeSlot (cfg : Config) (ext : Ext) (height : Int) (delta_time : Flt) (s : State)
    (i : Nat) : FillState :=
  updateLoop cfg ext height delta_time i ⟨{ s with buffer_size := 0 }, 0⟩

/-- The squared distance of two points in the `x`-`y` plane. -/
def sqDist (a b : Vec4) : Flt :=
  (b.x - a.x) * (b.x - a.x) + (b.y - a.y) * (b.y - a.y)

/-! ## The lifetime update with float rounding (lines 348-358) -/

/-- The power `2 ^ e` for an integer exponent `e`. -/
def pow2 : Int → ℚ
  | Int.ofNat n => ((2 ^ n : ℕ) : ℚ)
  | Int.negSucc n => 1 / ((2 ^ (n + 1) : ℕ) : ℚ)

/-- The base-2 logarithm of `n`, rounded down, by at most `fuel` halvings. -/
def log2Fuel : Nat → Nat → Nat
  | 0, _ => 0
  | fuel + 1, n => if 2 ≤ n then log2Fuel fuel (n / 2) + 1 else 0

/-- The binary exponent of a positive rational `q`: the `e` with
`2 ^ e <= q < 2 ^ (e + 1)`. -/
def exponent (q : ℚ) : Int :=
  let e : Int :=
    (log2Fuel q.num.natAbs q.num.natAbs : Int) - (log2Fuel q.den q.den : Int)
  if pow2 e ≤ q then e else e - 1

/-- Rounding of a non-negative rational to the nearest integer, ties to even. -/
def roundEven (m : ℚ) : Int :=
  let f : Int := Rat.floor m
  if m - (f : ℚ) < 1 / 2 then f
  else if 1 / 2 < m - (f : ℚ) then f + 1
  else if f % 2 = 0 then f else f + 1

/-- Rounding of a rational to the nearest `float` (IEEE binary32: 24 bits of
significand, least normal exponent `-126`, ties to even); a result of magnitude
`2 ^ 128` or more is not finite. -/
def roundF32 (q : ℚ) : Flt :=
  if q = 0 then Flt.fin 0
  else
    let a : ℚ := if q < 0 then -q else q
    let e : Int := max (exponent a) (-126)
    let ulp : ℚ := pow2 (e - 23)
    let r : ℚ := (roundEven (a / ulp) : ℚ) * ulp
    if pow2 128 ≤ r then Flt.nan else Flt.fin (if q < 0 then -r else r)

/-- The float subtraction `a - b`: the exact difference, rounded to the nearest
`float`. -/
def subF32 : Flt → Flt → Flt
  | Flt.fin a, Flt.fin b => roundF32 (a - b)
  | _, _ => Flt.nan

/-- The active flag and the remaining lifetime of one slot. -/
structure LifeState where
  active : Bool
  lifetime : Flt
  deriving DecidableEq

/-- Lines 348-358 as they act on `active_states[i]` and `lifetimes[i]` of one
slot, with the subtraction `lifetimes[i] -= delta_time` rounded to the nearest
`float`.  Nothing else in the frame loop writes these two but the emission. -/
def lifetimeUpdate (cfg : Config) (delta_time : Flt) (p : LifeState) : LifeState :=
  if p.active then
    if Flt.gt cfg.lifetime Flt.zero then
      let l := subF32 p.lifetime delta_time
      if Flt.le l Flt.zero then ⟨false, l⟩ else ⟨true, l⟩
    else p
  else p

/-- A rounded square root on the rationals: exact at `0` and at quotients of
perfect squares, not-a-number below `0`. -/
def approxSqrt : Flt → Flt
  | Flt.fin q =>
    if q < 0 then Flt.nan else Flt.fin ((Nat.sqrt (q.num.toNat * q.den) : ℚ) / (q.den : ℚ))
  | Flt.nan => Flt.nan

/-- A rational cosine: the point of the unit circle with half-angle tangent
`a / 2`. -/
def approxCos : Flt → Flt
  | Flt.fin a => Flt.fin ((1 - (a / 2) ^ 2) / (1 + (a / 2) ^ 2))
  | Flt.nan => Flt.nan

/-- A rational sine: the point of the unit circle with half-angle tangent
`a / 2`. -/
def approxSin : Flt → Flt
  | Flt.fin a => Flt.fin (2 * (a / 2) / (1 + (a / 2) ^ 2))
  | Flt.nan => Flt.nan

/-- A library with `RAND_MAX = 10` whose generator returns `3, 4, ..., 10, 0, 1, ...`. -/
def sampleExt : Ext where
  RAND_MAX := 10
  rand := fun k => (k + 3) % 11
  sqrt := approxSqrt
  cos := approxCos
  sin := approxSin

/-- The settings of the source with a pool of three slots. -/
def smallSettings : Config := { settings with pool_size := 3 }

/-- The pointer at rest at the origin. -/
def atOrigin : Nat → Vec2 × Vec2 := fun _ => (⟨Flt.zero, Flt.zero⟩, ⟨Flt.zero, Flt.zero⟩)

/-- The pool after two emissions into the empty pool of three slots. -/
def twoEmitted : State := emitN smallSettings sampleExt atOrigin 2 (init smallSettings)

/-- The pool after one emission into the empty pool of three slots. -/
def oneEmitted : State := emitN smallSettings sampleExt atOrigin 1 (init smallSettings)

/-- A frame with no button pressed, the pointer at the origin, the initial
window height and the frame delta `dt`. -/
def idleFrame (dt : Flt) : FrameInput where
  mouse := ⟨Flt.zero, Flt.zero⟩
  left := false
  right := false
  cursor := fun _ => ⟨Flt.zero, Flt.zero⟩
  height := 600
  delta_time := dt

/-- The pool of three slots after one emission and one update-and-fill pass
with frame delta `1 / 2`. -/
def oneDrawn : State := updateFill smallSettings sampleExt 600 (Flt.fin (1 / 2)) oneEmitted

/-! ## Theorems -/

/-! ### Array and loop facts -/

theorem clearActive_emit_index (n : Nat) (s : State) :
    (clearActive n s).emit_index = s.emit_index := by
  induction n with
  | zero => rfl
  | succ n ih => simpa [clearActive] using ih

theorem clearActive_active (n : Nat) (s : State) (j : Nat) :
    (clearActive n s).active_states j = if j < n then false else s.active_states j := by
  induction n with
  | zero => simp [clearActive]
  | succ n ih =>
    simp only [clearActive, write]
    by_cases h : j = n
    · subst h; simp
    · rw [if_neg h, ih]
      by_cases h2 : j < n
      · simp [h2, Nat.lt_succ_of_lt h2]
      · have : ¬ j < n + 1 := by omega
        simp [h2, this]

theorem setupIndices_emit_index (n : Nat) (s : State) :
    (setupIndices n s).emit_index = s.emit_index := by
  induction n with
  | zero => rfl
  | succ n ih => simpa [setupIndices] using ih

theorem setupIndices_active (n : Nat) (s : State) :
    (setupIndices n s).active_states = s.active_states := by
  induction n with
  | zero => rfl
  | succ n ih => simpa [setupIndices] using ih

theorem init_emit_index (cfg : Config) : (init cfg).emit_index = u32sub cfg.pool_size 1 := by
  simp [init, clearActive_emit_index, setupIndices_emit_index, start]

theorem init_active (cfg : Config) (j : Nat) : (init cfg).active_states j = false := by
  simp [init, clearActive_active, setupIndices_active, start]

/-! ### The emission cursor -/

theorem emitParticle_emit_index (cfg : Config) (ext : Ext) (m p : Vec2) (s : State) :
    (emitParticle cfg ext m p s).emit_index
      = u32sub (u32add s.emit_index cfg.pool_size) 1 % cfg.pool_size := rfl

theorem emitParticle_active (cfg : Config) (ext : Ext) (m p : Vec2) (s : State) :
    (emitParticle cfg ext m p s).active_states = write s.active_states s.emit_index true := rfl

theorem shift_eq (C c : Nat) (hC : 0 < C) (hrep : 2 * C - 1 < 2 ^ 32) (hc : c < C) :
    u32sub (u32add c C) 1 % C = if c = 0 then C - 1 else c - 1 := by
  have h1 : u32sub (u32add c C) 1 = c + C - 1 := by
    unfold u32sub u32add U32
    norm_num at hrep ⊢
    omega
  rw [h1]
  by_cases h0 : c = 0
  · subst h0
    simp only [if_true, Nat.zero_add]
    exact Nat.mod_eq_of_lt (by omega)
  · rw [if_neg h0]
    have : c + C - 1 = (c - 1) + C := by omega
    rw [this, Nat.add_mod_right]
    exact Nat.mod_eq_of_lt (by omega)

theorem shift_lt (C c : Nat) (hC : 0 < C) : u32sub (u32add c C) 1 % C < C :=
  Nat.mod_lt _ hC

theorem emitN_emit_index_lt (cfg : Config) (ext : Ext) (inp : Nat → Vec2 × Vec2) (k : Nat)
    (s : State) (hC : 0 < cfg.pool_size) (hc : s.emit_index < cfg.pool_size) :
    (emitN cfg ext inp k s).emit_index < cfg.pool_size := by
  cases k with
  | zero => exact hc
  | succ k => exact shift_lt _ _ hC

theorem emitN_step (cfg : Config) (ext : Ext) (inp : Nat → Vec2 × Vec2) (k : Nat) (s : State)
    (hC : 0 < cfg.pool_size) (hrep : 2 * cfg.pool_size - 1 < 2 ^ 32)
    (hc : s.emit_index < cfg.pool_size) :
    (emitN cfg ext inp (k + 1) s).emit_index
      = if (emitN cfg ext inp k s).emit_index = 0 then cfg.pool_size - 1
        else (emitN cfg ext inp k s).emit_index - 1 := by
  show u32sub (u32add (emitN cfg ext inp k s).emit_index cfg.pool_size) 1 % cfg.pool_size = _
  exact shift_eq _ _ hC hrep (emitN_emit_index_lt cfg ext inp k s hC hc)

theorem pred_mod_cast (C c : Nat) (hC : 0 < C) (hc : c < C) :
    (((if c = 0 then C - 1 else c - 1 : ℕ)) : ℤ) = ((c : ℤ) - 1) % (C : ℤ) := by
  by_cases h0 : c = 0
  · subst h0
    rw [if_pos rfl, ← Int.add_emod_self]
    rw [Int.emod_eq_of_lt (by omega) (by omega)]
    omega
  · rw [if_neg h0, Int.emod_eq_of_lt (by omega) (by omega)]
    omega

theorem emitN_emit_index_int (cfg : Config) (ext : Ext) (inp : Nat → Vec2 × Vec2) (k : Nat)
    (s : State) (hC : 0 < cfg.pool_size) (hrep : 2 * cfg.pool_size - 1 < 2 ^ 32)
    (hc : s.emit_index < cfg.pool_size) :
    ((emitN cfg ext inp k s).emit_index : ℤ)
      = ((s.emit_index : ℤ) - (k : ℤ)) % (cfg.pool_size : ℤ) := by
  induction k with
  | zero =>
    simp only [emitN, Nat.cast_zero, sub_zero]
    exact (Int.emod_eq_of_lt (by omega) (by omega)).symm
  | succ k ih =>
    rw [emitN_step cfg ext inp k s hC hrep hc]
    have hlt := emitN_emit_index_lt cfg ext inp k s hC hc
    rw [pred_mod_cast _ _ hC hlt, ih]
    have e : ((s.emit_index : ℤ) - ((k + 1 : ℕ) : ℤ)) = ((s.emit_index : ℤ) - (k : ℤ)) - 1 := by
      push_cast; ring
    rw [e, Int.sub_emod ((s.emit_index : ℤ) - (k : ℤ)), Int.sub_emod, Int.emod_emod]

theorem emitN_add (cfg : Config) (ext : Ext) (inp : Nat → Vec2 × Vec2) (k m : Nat)
    (s : State) (hC : 0 < cfg.pool_size) (hrep : 2 * cfg.pool_size - 1 < 2 ^ 32)
    (hc : s.emit_index < cfg.pool_size) :
    (emitN cfg ext inp (k + m * cfg.pool_size) s).emit_index
      = (emitN cfg ext inp k s).emit_index := by
  have h1 := emitN_emit_index_int cfg ext inp (k + m * cfg.pool_size) s hC hrep hc
  have h2 := emitN_emit_index_int cfg ext inp k s hC hrep hc
  have e : ((s.emit_index : ℤ) - ((k + m * cfg.pool_size : ℕ) : ℤ))
      = ((s.emit_index : ℤ) - (k : ℤ)) + (-(m : ℤ)) * (cfg.pool_size : ℤ) := by
    push_cast; ring
  rw [e, Int.add_mul_emod_self, ← h2] at h1
  exact_mod_cast h1

/-- C2: with `2 * pool_size - 1` representable in 32 bits and a cursor that
starts below `pool_size`, the emission cursor after `k` emissions is
`(c0 - k) mod pool_size` computed in the integers; it stays below `pool_size`,
one emission takes `c` to `c - 1` and `0` to `pool_size - 1`, and `pool_size`
further emissions (or any multiple) bring it back to where it was. -/
theorem emit_index_round_robin (cfg : Config) (ext : Ext) (inp : Nat → Vec2 × Vec2) (k : Nat)
    (s : State) (hC : 0 < cfg.pool_size) (hrep : 2 * cfg.pool_size - 1 < 2 ^ 32)
    (hc : s.emit_index < cfg.pool_size) :
    ((emitN cfg ext inp k s).emit_index : ℤ)
        = ((s.emit_index : ℤ) - (k : ℤ)) % (cfg.pool_size : ℤ)
      ∧ (emitN cfg ext inp k s).emit_index < cfg.pool_size
      ∧ (emitN cfg ext inp (k + 1) s).emit_index
          = (if (emitN cfg ext inp k s).emit_index = 0 then cfg.pool_size - 1
             else (emitN cfg ext inp k s).emit_index - 1)
      ∧ (emitN cfg ext inp (k + cfg.pool_size) s).emit_index
          = (emitN cfg ext inp k s).emit_index
      ∧ ∀ m : Nat, (emitN cfg ext inp (m * cfg.pool_size) s).emit_index = s.emit_index := by
  refine ⟨emitN_emit_index_int cfg ext inp k s hC hrep hc,
    emitN_emit_index_lt cfg ext inp k s hC hc,
    emitN_step cfg ext inp k s hC hrep hc, ?_, ?_⟩
  · simpa using emitN_add cfg ext inp k 1 s hC hrep hc
  · intro m
    simpa [emitN] using emitN_add cfg ext inp 0 m s hC hrep hc

theorem smallSettings_start_lt :
    (init smallSettings).emit_index < smallSettings.pool_size := by
  rw [init_emit_index]; decide

/-- C2 at a pool of three slots, four emissions from the initial state. -/
theorem emit_index_round_robin_witness :
    0 < smallSettings.pool_size ∧ 2 * smallSettings.pool_size - 1 < 2 ^ 32
      ∧ (init smallSettings).emit_index < smallSettings.pool_size
      ∧ (emitN smallSettings sampleExt atOrigin (4 + smallSettings.pool_size)
          (init smallSettings)).emit_index
        = (emitN smallSettings sampleExt atOrigin 4 (init smallSettings)).emit_index :=
  ⟨by decide, by decide, smallSettings_start_lt,
    (emit_index_round_robin smallSettings sampleExt atOrigin 4 (init smallSettings)
      (by decide) (by decide) smallSettings_start_lt).2.2.2.1⟩

/-! ### Saturation of the pool -/

theorem emitN_active_mono (cfg : Config) (ext : Ext) (inp : Nat → Vec2 × Vec2) (n : Nat)
    (s : State) (i : Nat) (h : s.active_states i = true) :
    (emitN cfg ext inp n s).active_states i = true := by
  induction n with
  | zero => exact h
  | succ n ih =>
    show write _ _ true i = true
    unfold write
    split
    · rfl
    · exact ih

theorem updateSlot_indices (cfg : Config) (ext : Ext) (height : Int) (dt : Flt) (i : Nat)
    (f : FillState) : (updateSlot cfg ext height dt i f).st.indices = f.st.indices := by
  unfold updateSlot
  simp only []
  split_ifs <;> rfl

theorem updateSlot_active_self (cfg : Config) (ext : Ext) (height : Int) (dt : Flt) (i : Nat)
    (f : FillState) :
    (updateSlot cfg ext height dt i f).st.active_states i = survives cfg dt f.st i := by
  unfold updateSlot survives
  simp only []
  split_ifs <;> simp_all [write]

theorem updateSlot_active_other (cfg : Config) (ext : Ext) (height : Int) (dt : Flt) (i : Nat)
    (f : FillState) (j : Nat) (h : j ≠ i) :
    (updateSlot cfg ext height dt i f).st.active_states j = f.st.active_states j := by
  unfold updateSlot
  simp only []
  split_ifs <;> simp_all [write]

theorem updateSlot_slot_other (cfg : Config) (ext : Ext) (height : Int) (dt : Flt) (i : Nat)
    (f : FillState) (j : Nat) (h : j ≠ i) :
    slotAt (updateSlot cfg ext height dt i f).st j = slotAt f.st j := by
  unfold updateSlot slotAt
  simp only []
  split_ifs <;> simp_all [write]

theorem updateSlot_vertex_ptr (cfg : Config) (ext : Ext) (height : Int) (dt : Flt) (i : Nat)
    (f : FillState) :
    (updateSlot cfg ext height dt i f).vertex_ptr
      = f.vertex_ptr + 4 * (if survives cfg dt f.st i then 1 else 0) := by
  unfold updateSlot survives
  simp only []
  split_ifs <;> simp_all [write]

theorem updateSlot_buffer_size (cfg : Config) (ext : Ext) (height : Int) (dt : Flt) (i : Nat)
    (f : FillState) :
    (updateSlot cfg ext height dt i f).st.buffer_size
      = if survives cfg dt f.st i then u32add f.st.buffer_size 1 else f.st.buffer_size := by
  unfold updateSlot survives
  simp only []
  split_ifs <;> simp_all [write]

theorem updateSlot_vertices_below (cfg : Config) (ext : Ext) (height : Int) (dt : Flt) (i : Nat)
    (f : FillState) (n : Nat) (h : n < f.vertex_ptr) :
    (updateSlot cfg ext height dt i f).st.vertices n = f.st.vertices n := by
  unfold updateSlot
  simp only []
  split_ifs <;> first
    | rfl
    | (simp only [write]
       rw [if_neg (by omega), if_neg (by omega), if_neg (by omega), if_neg (by omega)])

theorem quadVertex_congr (cfg : Config) (ext : Ext) (s t : State) (i j : Nat)
    (h : slotAt s i = slotAt t i) : quadVertex cfg ext s i j = quadVertex cfg ext t i j := by
  have hp : s.positions i = t.positions i := congrArg Slot.position h
  have h1 : s.lifetimes i = t.lifetimes i := congrArg Slot.lifetime h
  have h2 : s.begin_sizes i = t.begin_sizes i := congrArg Slot.begin_size h
  have h3 : s.end_sizes i = t.end_sizes i := congrArg Slot.end_size h
  have h4 : s.rotations i = t.rotations i := congrArg Slot.rotation h
  have h5 : s.begin_rotations i = t.begin_rotations i := congrArg Slot.begin_rotation h
  simp only [quadVertex, fillRotation, fillSize, fillColor, fillT, hp, h1, h2, h3, h4, h5]

theorem updateSlot_vertices_new (cfg : Config) (ext : Ext) (height : Int) (dt : Flt) (i : Nat)
    (f : FillState) (h : survives cfg dt f.st i = true) (j : Nat) (hj : j < 4) :
    (updateSlot cfg ext height dt i f).st.vertices (f.vertex_ptr + j)
      = quadVertex cfg ext (updateSlot cfg ext height dt i f).st i j := by
  have hj4 : j = 0 ∨ j = 1 ∨ j = 2 ∨ j = 3 := by omega
  unfold survives at h
  unfold updateSlot
  simp only []
  split_ifs <;> first
    | (exfalso; simp_all [write]; done)
    | (rcases hj4 with rfl | rfl | rfl | rfl <;> simp [write] <;>
        exact quadVertex_congr _ _ _ _ _ _ rfl)

/-! ### The update-and-fill loop -/

theorem drawnBelow_succ (cfg : Config) (dt : Flt) (s : State) (n : Nat) :
    drawnBelow cfg dt s (n + 1)
      = drawnBelow cfg dt s n + (if survives cfg dt s n then 1 else 0) := by
  unfold drawnBelow
  rw [List.range_succ, List.countP_append]
  by_cases h : survives cfg dt s n = true
  · simp [h]
  · simp [h]

theorem drawnBelow_mono (cfg : Config) (dt : Flt) (s : State) (m n : Nat) (h : m ≤ n) :
    drawnBelow cfg dt s m ≤ drawnBelow cfg dt s n := by
  induction n with
  | zero =>
    have : m = 0 := by omega
    subst this; exact Nat.le_refl _
  | succ n ih =>
    rcases Nat.lt_or_ge m (n + 1) with h1 | h1
    · have := ih (by omega)
      rw [drawnBelow_succ]
      omega
    · have : m = n + 1 := by omega
      subst this; exact Nat.le_refl _

theorem drawnBelow_le (cfg : Config) (dt : Flt) (s : State) (n : Nat) :
    drawnBelow cfg dt s n ≤ n := by
  unfold drawnBelow
  have := List.countP_le_length (survives cfg dt s) (l := List.range n)
  simpa using this

theorem survives_congr (cfg : Config) (dt : Flt) (s t : State) (i : Nat)
    (h1 : slotAt s i = slotAt t i) (h2 : s.active_states i = t.active_states i) :
    survives cfg dt s i = survives cfg dt t i := by
  have hl : s.lifetimes i = t.lifetimes i := congrArg Slot.lifetime h1
  simp only [survives, hl, h2]

theorem updateLoop_above (cfg : Config) (ext : Ext) (height : Int) (dt : Flt) (n : Nat)
    (f : FillState) (j : Nat) (h : n ≤ j) :
    slotAt (updateLoop cfg ext height dt n f).st j = slotAt f.st j
      ∧ (updateLoop cfg ext height dt n f).st.active_states j = f.st.active_states j := by
  induction n with
  | zero => exact ⟨rfl, rfl⟩
  | succ n ih =>
    have hne : j ≠ n := by omega
    have ih2 := ih (by omega)
    constructor
    · show slotAt (updateSlot cfg ext height dt n _).st j = _
      rw [updateSlot_slot_other _ _ _ _ _ _ _ hne]; exact ih2.1
    · show (updateSlot cfg ext height dt n _).st.active_states j = _
      rw [updateSlot_active_other _ _ _ _ _ _ _ hne]; exact ih2.2

theorem updateLoop_survives_at (cfg : Config) (ext : Ext) (height : Int) (dt : Flt) (n : Nat)
    (f : FillState) :
    survives cfg dt (updateLoop cfg ext height dt n f).st n = survives cfg dt f.st n := by
  have h := updateLoop_above cfg ext height dt n f n (Nat.le_refl _)
  exact survives_congr cfg dt _ _ n h.1 h.2

theorem updateLoop_indices (cfg : Config) (ext : Ext) (height : Int) (dt : Flt) (n : Nat)
    (f : FillState) : (updateLoop cfg ext height dt n f).st.indices = f.st.indices := by
  induction n with
  | zero => rfl
  | succ n ih =>
    show (updateSlot cfg ext height dt n _).st.indices = _
    rw [updateSlot_indices]; exact ih

theorem updateLoop_active_below (cfg : Config) (ext : Ext) (height : Int) (dt : Flt) (n : Nat)
    (f : FillState) (j : Nat) (h : j < n) :
    (updateLoop cfg ext height dt n f).st.active_states j = survives cfg dt f.st j := by
  induction n with
  | zero => omega
  | succ n ih =>
    show (updateSlot cfg ext height dt n _).st.active_states j = _
    by_cases hj : j = n
    · subst hj
      rw [updateSlot_active_self, updateLoop_survives_at]
    · rw [updateSlot_active_other _ _ _ _ _ _ _ hj]
      exact ih (by omega)

theorem updateLoop_vertex_ptr (cfg : Config) (ext : Ext) (height : Int) (dt : Flt) (n : Nat)
    (f : FillState) :
    (updateLoop cfg ext height dt n f).vertex_ptr
      = f.vertex_ptr + 4 * drawnBelow cfg dt f.st n := by
  induction n with
  | zero => simp [updateLoop, drawnBelow]
  | succ n ih =>
    show (updateSlot cfg ext height dt n _).vertex_ptr = _
    rw [updateSlot_vertex_ptr, updateLoop_survives_at, ih, drawnBelow_succ]
    ring

theorem updateLoop_buffer_size (cfg : Config) (ext : Ext) (height : Int) (dt : Flt) (n : Nat)
    (f : FillState) (hb : f.st.buffer_size = 0) :
    (updateLoop cfg ext height dt n f).st.buffer_size = drawnBelow cfg dt f.st n % U32 := by
  induction n with
  | zero => simp [updateLoop, drawnBelow, hb]
  | succ n ih =>
    show (updateSlot cfg ext height dt n _).st.buffer_size = _
    rw [updateSlot_buffer_size, updateLoop_survives_at, ih, drawnBelow_succ]
    by_cases h : survives cfg dt f.st n = true
    · simp only [h, if_true, u32add, Nat.mod_add_mod]
    · simp [h]

theorem updateLoop_vertices (cfg : Config) (ext : Ext) (height : Int) (dt : Flt) (n : Nat)
    (f : FillState) (i : Nat) (hi : i < n) (hs : survives cfg dt f.st i = true)
    (j : Nat) (hj : j < 4) :
    (updateLoop cfg ext height dt n f).st.vertices
        (f.vertex_ptr + 4 * drawnBelow cfg dt f.st i + j)
      = quadVertex cfg ext (updateLoop cfg ext height dt n f).st i j := by
  induction n with
  | zero => omega
  | succ n ih =>
    show (updateSlot cfg ext height dt n _).st.vertices _
      = quadVertex cfg ext (updateSlot cfg ext height dt n _).st i j
    by_cases hin : i = n
    · subst hin
      have hs2 : survives cfg dt (updateLoop cfg ext height dt i f).st i = true := by
        rw [updateLoop_survives_at]; exact hs
      have := updateSlot_vertices_new cfg ext height dt i _ hs2 j hj
      rw [updateLoop_vertex_ptr] at this
      exact this
    · have hlt : i < n := by omega
      have hcnt : drawnBelow cfg dt f.st i + 1 ≤ drawnBelow cfg dt f.st n := by
        have h1 := drawnBelow_mono cfg dt f.st (i + 1) n (by omega)
        rw [drawnBelow_succ, hs] at h1
        simpa using h1
      rw [updateSlot_vertices_below _ _ _ _ _ _ _ (by rw [updateLoop_vertex_ptr]; omega)]
      rw [ih hlt]
      exact quadVertex_congr _ _ _ _ _ _ (updateSlot_slot_other _ _ _ _ _ _ _ hin).symm

theorem updateFill_active (cfg : Config) (ext : Ext) (height : Int) (dt : Flt) (s : State)
    (i : Nat) (hi : i < cfg.pool_size) :
    (updateFill cfg ext height dt s).active_states i = survives cfg dt s i := by
  unfold updateFill
  rw [updateLoop_active_below _ _ _ _ _ _ _ hi]
  rfl

theorem updateFill_buffer_size (cfg : Config) (ext : Ext) (height : Int) (dt : Flt) (s : State)
    (hC : cfg.pool_size < 2 ^ 32) :
    (updateFill cfg ext height dt s).buffer_size = drawnBelow cfg dt s cfg.pool_size := by
  unfold updateFill
  rw [updateLoop_buffer_size _ _ _ _ _ _ rfl]
  have h1 : drawnBelow cfg dt { s with buffer_size := 0 } cfg.pool_size
      = drawnBelow cfg dt s cfg.pool_size := rfl
  rw [h1]
  apply Nat.mod_eq_of_lt
  have := drawnBelow_le cfg dt s cfg.pool_size
  unfold U32
  omega

theorem updateFill_activeCount (cfg : Config) (ext : Ext) (height : Int) (dt : Flt) (s : State) :
    activeCount cfg (updateFill cfg ext height dt s) = drawnBelow cfg dt s cfg.pool_size := by
  unfold activeCount drawnBelow
  apply List.countP_congr
  intro i hi
  rw [updateFill_active cfg ext height dt s i (List.mem_range.mp hi)]

/-- C3: the live count `buffer_size` the update-and-fill pass leaves equals the
number of slots that are active at the end of the pass; a slot is active at the
end exactly when it was active before and the lifetime update of this frame
did not expire it; the count is at most the pool capacity. -/
theorem buffer_size_counts_active (cfg : Config) (ext : Ext) (height : Int) (dt : Flt)
    (s : State) (hC : cfg.pool_size < 2 ^ 32) :
    (updateFill cfg ext height dt s).buffer_size
        = activeCount cfg (updateFill cfg ext height dt s)
      ∧ (∀ i, i < cfg.pool_size →
          (updateFill cfg ext height dt s).active_states i
            = (s.active_states i &&
                !(Flt.gt cfg.lifetime Flt.zero && Flt.le (s.lifetimes i - dt) Flt.zero)))
      ∧ (updateFill cfg ext height dt s).buffer_size
          = (List.range cfg.pool_size).countP (fun i => s.active_states i &&
              !(Flt.gt cfg.lifetime Flt.zero && Flt.le (s.lifetimes i - dt) Flt.zero))
      ∧ (updateFill cfg ext height dt s).buffer_size ≤ cfg.pool_size := by
  have hb := updateFill_buffer_size cfg ext height dt s hC
  refine ⟨?_, ?_, ?_, ?_⟩
  · rw [hb, updateFill_activeCount]
  · intro i hi
    exact updateFill_active cfg ext height dt s i hi
  · rw [hb]; rfl
  · rw [hb]; exact drawnBelow_le cfg dt s cfg.pool_size

/-! ### The drawn range -/

theorem filter_range_index (p : Nat → Bool) (N k i : Nat)
    (h : ((List.range N).filter p)[k]? = some i) :
    i < N ∧ p i = true ∧ (List.range i).countP p = k := by
  induction N with
  | zero => simp at h
  | succ N ih =>
    rw [List.range_succ, List.filter_append] at h
    by_cases hk : k < ((List.range N).filter p).length
    · rw [List.getElem?_append_left hk] at h
      have := ih h
      exact ⟨by omega, this.2⟩
    · rw [List.getElem?_append_right (by omega)] at h
      by_cases hp : p N = true
      · simp only [List.filter_cons, hp, if_true, List.filter_nil] at h
        have hlen : (List.range N).countP p = ((List.range N).filter p).length :=
          List.countP_eq_length_filter p _
        rcases Nat.eq_zero_or_pos (k - ((List.range N).filter p).length) with h0 | h0
        · rw [h0] at h
          simp at h
          subst h
          exact ⟨by omega, hp, by omega⟩
        · obtain ⟨m, hm⟩ := Nat.exists_eq_succ_of_ne_zero (Nat.pos_iff_ne_zero.mp h0)
          rw [hm] at h
          simp at h
      · simp [hp] at h

theorem setupIndices_above (n : Nat) (s : State) (e : Nat) (h : 6 * n ≤ e) :
    (setupIndices n s).indices e = s.indices e := by
  induction n with
  | zero => rfl
  | succ n ih =>
    simp only [setupIndices, write]
    rw [if_neg (by omega), if_neg (by omega), if_neg (by omega), if_neg (by omega),
      if_neg (by omega), if_neg (by omega)]
    exact ih (by omega)

theorem setupIndices_entry (n : Nat) (s : State) (i : Nat) (hi : i < n) :
    (setupIndices n s).indices (6 * i + 0) = (4 * i + 0) % U32
      ∧ (setupIndices n s).indices (6 * i + 1) = (4 * i + 1) % U32
      ∧ (setupIndices n s).indices (6 * i + 2) = (4 * i + 2) % U32
      ∧ (setupIndices n s).indices (6 * i + 3) = (4 * i + 1) % U32
      ∧ (setupIndices n s).indices (6 * i + 4) = (4 * i + 2) % U32
      ∧ (setupIndices n s).indices (6 * i + 5) = (4 * i + 3) % U32 := by
  induction n with
  | zero => omega
  | succ n ih =>
    by_cases hin : i = n
    · subst hin
      simp [setupIndices, write]
    · have ih2 := ih (by omega)
      simp only [setupIndices, write]
      refine ⟨?_, ?_, ?_, ?_, ?_, ?_⟩ <;>
        (rw [if_neg (by omega), if_neg (by omega), if_neg (by omega), if_neg (by omega),
          if_neg (by omega), if_neg (by omega)])
      · exact ih2.1
      · exact ih2.2.1
      · exact ih2.2.2.1
      · exact ih2.2.2.2.1
      · exact ih2.2.2.2.2.1
      · exact ih2.2.2.2.2.2

theorem clearActive_indices (n : Nat) (s : State) :
    (clearActive n s).indices = s.indices := by
  induction n with
  | zero => rfl
  | succ n ih => simpa [clearActive] using ih

theorem init_indices (cfg : Config) (i : Nat) (hi : i < cfg.pool_size)
    (hC : 6 * cfg.pool_size ≤ 2 ^ 31) :
    (init cfg).indices (6 * i + 0) = 4 * i + 0
      ∧ (init cfg).indices (6 * i + 1) = 4 * i + 1
      ∧ (init cfg).indices (6 * i + 2) = 4 * i + 2
      ∧ (init cfg).indices (6 * i + 3) = 4 * i + 1
      ∧ (init cfg).indices (6 * i + 4) = 4 * i + 2
      ∧ (init cfg).indices (6 * i + 5) = 4 * i + 3 := by
  have h := setupIndices_entry cfg.pool_size (start cfg) i hi
  unfold init
  rw [clearActive_indices]
  have e0 : (4 * i + 0) % U32 = 4 * i + 0 := Nat.mod_eq_of_lt (by unfold U32; omega)
  have e1 : (4 * i + 1) % U32 = 4 * i + 1 := Nat.mod_eq_of_lt (by unfold U32; omega)
  have e2 : (4 * i + 2) % U32 = 4 * i + 2 := Nat.mod_eq_of_lt (by unfold U32; omega)
  have e3 : (4 * i + 3) % U32 = 4 * i + 3 := Nat.mod_eq_of_lt (by unfold U32; omega)
  rw [e0, e1, e2, e3] at h
  exact h

theorem updateFill_indices (cfg : Config) (ext : Ext) (height : Int) (dt : Flt) (s : State) :
    (updateFill cfg ext height dt s).indices = s.indices := by
  unfold updateFill
  rw [updateLoop_indices]

theorem activeSlots_updateFill (cfg : Config) (ext : Ext) (height : Int) (dt : Flt) (s : State) :
    activeSlots cfg (updateFill cfg ext height dt s)
      = (List.range cfg.pool_size).filter (survives cfg dt s) := by
  unfold activeSlots
  apply List.filter_congr
  intro i hi
  rw [updateFill_active cfg ext height dt s i (List.mem_range.mp hi)]

/-- C4: after the update-and-fill pass, for every `k` below the live count the
vertices `4k .. 4k+3` are the four vertices of the `k`-th active slot (in slot
index order) as the fill step computes them, the index entries `6k .. 6k+5` are
`4k, 4k+1, 4k+2, 4k+1, 4k+2, 4k+3`, and each of them is below `4 * liveCount`.
The index table is the one the setup loop wrote (`hidx`). -/
theorem drawn_range_dense (cfg : Config) (ext : Ext) (height : Int) (dt : Flt) (s : State)
    (hC : 6 * cfg.pool_size ≤ 2 ^ 31) (hidx : s.indices = (init cfg).indices) (k : Nat)
    (hk : k < (updateFill cfg ext height dt s).buffer_size) :
    (∃ i, (activeSlots cfg (updateFill cfg ext height dt s))[k]? = some i
        ∧ i < cfg.pool_size
        ∧ ∀ j, j < 4 →
            (updateFill cfg ext height dt s).vertices (4 * k + j)
              = quadVertex cfg ext (updateFill cfg ext height dt s) i j)
      ∧ (updateFill cfg ext height dt s).indices (6 * k + 0) = 4 * k + 0
      ∧ (updateFill cfg ext height dt s).indices (6 * k + 1) = 4 * k + 1
      ∧ (updateFill cfg ext height dt s).indices (6 * k + 2) = 4 * k + 2
      ∧ (updateFill cfg ext height dt s).indices (6 * k + 3) = 4 * k + 1
      ∧ (updateFill cfg ext height dt s).indices (6 * k + 4) = 4 * k + 2
      ∧ (updateFill cfg ext height dt s).indices (6 * k + 5) = 4 * k + 3
      ∧ ∀ j, j < 6 →
          (updateFill cfg ext height dt s).indices (6 * k + j)
            < 4 * (updateFill cfg ext height dt s).buffer_size := by
  have hb := updateFill_buffer_size cfg ext height dt s (by omega)
  have hkC : k < cfg.pool_size := by
    have := drawnBelow_le cfg dt s cfg.pool_size
    omega
  have hI := init_indices cfg k hkC hC
  rw [updateFill_indices, hidx]
  refine ⟨?_, hI.1, hI.2.1, hI.2.2.1, hI.2.2.2.1, hI.2.2.2.2.1, hI.2.2.2.2.2, ?_⟩
  · rw [activeSlots_updateFill]
    have hlen : k < ((List.range cfg.pool_size).filter (survives cfg dt s)).length := by
      rw [← List.countP_eq_length_filter]
      rw [hb] at hk
      exact hk
    refine ⟨((List.range cfg.pool_size).filter (survives cfg dt s))[k], ?_, ?_⟩
    · exact List.getElem?_eq_getElem hlen
    · have hget := filter_range_index (survives cfg dt s) cfg.pool_size k _
        (List.getElem?_eq_getElem hlen)
      refine ⟨hget.1, ?_⟩
      intro j hj
      have hv := updateLoop_vertices cfg ext height dt cfg.pool_size
        ⟨{ s with buffer_size := 0 }, 0⟩ _ hget.1 hget.2.1 j hj
      have hr : drawnBelow cfg dt { s with buffer_size := 0 }
          ((List.range cfg.pool_size).filter (survives cfg dt s))[k] = k := hget.2.2
      rw [hr] at hv
      simpa [updateFill] using hv
  · intro j hj
    have hj6 : j = 0 ∨ j = 1 ∨ j = 2 ∨ j = 3 ∨ j = 4 ∨ j = 5 := by omega
    rcases hj6 with rfl | rfl | rfl | rfl | rfl | rfl
    · rw [hI.1]; omega
    · rw [hI.2.1]; omega
    · rw [hI.2.2.1]; omega
    · rw [hI.2.2.2.1]; omega
    · rw [hI.2.2.2.2.1]; omega
    · rw [hI.2.2.2.2.2]; omega

/-! ### The slot processed by an iteration -/

theorem updateSlot_lifetime_self (cfg : Config) (ext : Ext) (height : Int) (dt : Flt) (i : Nat)
    (f : FillState) :
    (updateSlot cfg ext height dt i f).st.lifetimes i
      = if (f.st.active_states i && Flt.gt cfg.lifetime Flt.zero) = true
        then f.st.lifetimes i - dt else f.st.lifetimes i := by
  unfold updateSlot
  simp only []
  split_ifs <;> simp_all [write]

theorem updateSlot_position_self (cfg : Config) (ext : Ext) (height : Int) (dt : Flt) (i : Nat)
    (f : FillState) :
    (updateSlot cfg ext height dt i f).st.positions i
      = if survives cfg dt f.st i = true
        then f.st.positions i + (f.st.velocities i).muls dt else f.st.positions i := by
  unfold updateSlot survives
  simp only []
  split_ifs <;> simp_all [write]

theorem updateSlot_velocity_self (cfg : Config) (ext : Ext) (height : Int) (dt : Flt) (i : Nat)
    (f : FillState) :
    (updateSlot cfg ext height dt i f).st.velocities i
      = if survives cfg dt f.st i = true then
          (if (Flt.gt (f.st.positions i + (f.st.velocities i).muls dt).y (Flt.ofInt height)
                && cfg.bounce) = true then
            ⟨(f.st.velocities i).x * cfg.friction,
             ((f.st.velocities i).y + cfg.gravity * dt)
               * (-cfg.bounce_damping * randf ext f.st.rand_calls)⟩
          else ⟨(f.st.velocities i).x, (f.st.velocities i).y + cfg.gravity * dt⟩)
        else f.st.velocities i := by
  unfold updateSlot survives
  simp only []
  split_ifs <;> simp_all [write]

theorem updateLoop_below (cfg : Config) (ext : Ext) (height : Int) (dt : Flt) (n : Nat)
    (f : FillState) (i : Nat) (h : i < n) :
    slotAt (updateLoop cfg ext height dt n f).st i
      = slotAt (updateSlot cfg ext height dt i (updateLoop cfg ext height dt i f)).st i := by
  induction n with
  | zero => omega
  | succ n ih =>
    by_cases hin : i = n
    · subst hin; rfl
    · show slotAt (updateSlot cfg ext height dt n _).st i = _
      rw [updateSlot_slot_other _ _ _ _ _ _ _ hin]
      exact ih (by omega)

/-! ### The pass, slot by slot -/

theorem beforeSlot_slot (cfg : Config) (ext : Ext) (height : Int) (dt : Flt) (s : State)
    (i : Nat) :
    slotAt (beforeSlot cfg ext height dt s i).st i = slotAt s i
      ∧ (beforeSlot cfg ext height dt s i).st.active_states i = s.active_states i := by
  have h := updateLoop_above cfg ext height dt i ⟨{ s with buffer_size := 0 }, 0⟩ i
    (Nat.le_refl _)
  exact h

theorem beforeSlot_survives (cfg : Config) (ext : Ext) (height : Int) (dt : Flt) (s : State)
    (i : Nat) :
    survives cfg dt (beforeSlot cfg ext height dt s i).st i = survives cfg dt s i := by
  have h := beforeSlot_slot cfg ext height dt s i
  exact survives_congr cfg dt _ _ i h.1 h.2

theorem updateFill_slot (cfg : Config) (ext : Ext) (height : Int) (dt : Flt) (s : State)
    (i : Nat) (hi : i < cfg.pool_size) :
    slotAt (updateFill cfg ext height dt s) i
      = slotAt (updateSlot cfg ext height dt i (beforeSlot cfg ext height dt s i)).st i := by
  unfold updateFill beforeSlot
  exact updateLoop_below cfg ext height dt cfg.pool_size _ i hi

theorem updateFill_lifetime (cfg : Config) (ext : Ext) (height : Int) (dt : Flt) (s : State)
    (i : Nat) (hi : i < cfg.pool_size) :
    (updateFill cfg ext height dt s).lifetimes i
      = if (s.active_states i && Flt.gt cfg.lifetime Flt.zero) = true
        then s.lifetimes i - dt else s.lifetimes i := by
  have h := congrArg Slot.lifetime (updateFill_slot cfg ext height dt s i hi)
  have hb := beforeSlot_slot cfg ext height dt s i
  have hl : (beforeSlot cfg ext height dt s i).st.lifetimes i = s.lifetimes i :=
    congrArg Slot.lifetime hb.1
  simp only [slotAt] at h
  rw [h, updateSlot_lifetime_self, hb.2, hl]

theorem updateFill_position (cfg : Config) (ext : Ext) (height : Int) (dt : Flt) (s : State)
    (i : Nat) (hi : i < cfg.pool_size) :
    (updateFill cfg ext height dt s).positions i
      = if survives cfg dt s i = true
        then s.positions i + (s.velocities i).muls dt else s.positions i := by
  have h := congrArg Slot.position (updateFill_slot cfg ext height dt s i hi)
  have hb := beforeSlot_slot cfg ext height dt s i
  have hp : (beforeSlot cfg ext height dt s i).st.positions i = s.positions i :=
    congrArg Slot.position hb.1
  have hv : (beforeSlot cfg ext height dt s i).st.velocities i = s.velocities i :=
    congrArg Slot.velocity hb.1
  simp only [slotAt] at h
  rw [h, updateSlot_position_self, beforeSlot_survives, hp, hv]

theorem updateFill_velocity (cfg : Config) (ext : Ext) (height : Int) (dt : Flt) (s : State)
    (i : Nat) (hi : i < cfg.pool_size) :
    (updateFill cfg ext height dt s).velocities i
      = if survives cfg dt s i = true then
          (if (Flt.gt (s.positions i + (s.velocities i).muls dt).y (Flt.ofInt height)
                && cfg.bounce) = true then
            ⟨(s.velocities i).x * cfg.friction,
             ((s.velocities i).y + cfg.gravity * dt)
               * (-cfg.bounce_damping
                    * randf ext (beforeSlot cfg ext height dt s i).st.rand_calls)⟩
          else ⟨(s.velocities i).x, (s.velocities i).y + cfg.gravity * dt⟩)
        else s.velocities i := by
  have h := congrArg Slot.velocity (updateFill_slot cfg ext height dt s i hi)
  have hb := beforeSlot_slot cfg ext height dt s i
  have hp : (beforeSlot cfg ext height dt s i).st.positions i = s.positions i :=
    congrArg Slot.position hb.1
  have hv : (beforeSlot cfg ext height dt s i).st.velocities i = s.velocities i :=
    congrArg Slot.velocity hb.1
  simp only [slotAt] at h
  rw [h, updateSlot_velocity_self, beforeSlot_survives, hp, hv]

/-! ### The attractor loop -/

theorem attractSlot_active (ext : Ext) (a : Vec2) (i : Nat) (s : State) :
    (attractSlot ext a i s).active_states = s.active_states := by
  unfold attractSlot; split_ifs <;> rfl

theorem attractSlot_positions (ext : Ext) (a : Vec2) (i : Nat) (s : State) :
    (attractSlot ext a i s).positions = s.positions := by
  unfold attractSlot; split_ifs <;> rfl

theorem attractSlot_slot_other (ext : Ext) (a : Vec2) (i : Nat) (s : State) (j : Nat)
    (h : j ≠ i) : slotAt (attractSlot ext a i s) j = slotAt s j := by
  unfold attractSlot slotAt
  split_ifs <;> simp [write, h]

theorem attractLoop_active (ext : Ext) (cursor : Nat → Vec2) (n : Nat) (s : State) :
    (attractLoop ext cursor n s).active_states = s.active_states := by
  induction n with
  | zero => rfl
  | succ n ih =>
    show (attractSlot ext (cursor n) n _).active_states = _
    rw [attractSlot_active]; exact ih

theorem attractLoop_positions (ext : Ext) (cursor : Nat → Vec2) (n : Nat) (s : State) :
    (attractLoop ext cursor n s).positions = s.positions := by
  induction n with
  | zero => rfl
  | succ n ih =>
    show (attractSlot ext (cursor n) n _).positions = _
    rw [attractSlot_positions]; exact ih

theorem attractLoop_above (ext : Ext) (cursor : Nat → Vec2) (n : Nat) (s : State)
    (j : Nat) (h : n ≤ j) : slotAt (attractLoop ext cursor n s) j = slotAt s j := by
  induction n with
  | zero => rfl
  | succ n ih =>
    show slotAt (attractSlot ext (cursor n) n _) j = _
    rw [attractSlot_slot_other _ _ _ _ _ (by omega)]
    exact ih (by omega)

theorem attractLoop_velocity (ext : Ext) (cursor : Nat → Vec2) (n : Nat) (s : State)
    (i : Nat) (hi : i < n) :
    (attractLoop ext cursor n s).velocities i
      = if s.active_states i = true then
          s.velocities i -
            (Vec2.smul (Flt.fin 100) (s.positions i - cursor i)).divs
              (length ext (s.positions i - cursor i))
        else s.velocities i := by
  induction n with
  | zero => omega
  | succ n ih =>
    show (attractSlot ext (cursor n) n _).velocities i = _
    by_cases hin : i = n
    · subst hin
      have hv : (attractLoop ext cursor i s).velocities i = s.velocities i :=
        congrArg Slot.velocity (attractLoop_above ext cursor i s i (Nat.le_refl _))
      unfold attractSlot
      rw [attractLoop_active]
      split_ifs
      · simp only [write, if_true, attractLoop_positions, hv]
      · exact hv
    · have := congrArg Slot.velocity (attractSlot_slot_other ext (cursor n) n
        (attractLoop ext cursor n s) i hin)
      simp only [slotAt] at this
      rw [this]; exact ih (by omega)

theorem Flt.sub_nan (a : Flt) : a - Flt.nan = Flt.nan := by
  cases a <;> rfl

theorem attract_at_target (ext : Ext) (a b : ℚ) (v : Vec2)
    (h0 : ext.sqrt (Flt.fin 0) = Flt.fin 0) :
    v - (Vec2.smul (Flt.fin 100) ((⟨Flt.fin a, Flt.fin b⟩ : Vec2) - ⟨Flt.fin a, Flt.fin b⟩)).divs
        (length ext ((⟨Flt.fin a, Flt.fin b⟩ : Vec2) - ⟨Flt.fin a, Flt.fin b⟩))
      = ⟨Flt.nan, Flt.nan⟩ := by
  obtain ⟨vx, vy⟩ := v
  have hl : length ext ((⟨Flt.fin a, Flt.fin b⟩ : Vec2) - ⟨Flt.fin a, Flt.fin b⟩)
      = Flt.fin 0 := by
    have : Vec2.dot ((⟨Flt.fin a, Flt.fin b⟩ : Vec2) - ⟨Flt.fin a, Flt.fin b⟩)
        ((⟨Flt.fin a, Flt.fin b⟩ : Vec2) - ⟨Flt.fin a, Flt.fin b⟩) = Flt.fin 0 := by
      show Flt.fin ((a - a) * (a - a) + (b - b) * (b - b)) = Flt.fin 0
      simp
    unfold length
    rw [this, h0]
  rw [hl]
  have hdiv : (Vec2.smul (Flt.fin 100)
      ((⟨Flt.fin a, Flt.fin b⟩ : Vec2) - ⟨Flt.fin a, Flt.fin b⟩)).divs (Flt.fin 0)
        = ⟨Flt.nan, Flt.nan⟩ := by
    show (⟨Flt.div (Flt.fin (100 * (a - a))) (Flt.fin 0),
      Flt.div (Flt.fin (100 * (b - b))) (Flt.fin 0)⟩ : Vec2) = _
    simp [Flt.div]
  rw [hdiv]
  show (⟨vx - Flt.nan, vy - Flt.nan⟩ : Vec2) = _
  rw [Flt.sub_nan, Flt.sub_nan]

theorem attractLoop_at_target (ext : Ext) (cursor : Nat → Vec2) (n : Nat) (s : State) (i : Nat)
    (a b : ℚ) (hi : i < n) (hact : s.active_states i = true)
    (hpos : s.positions i = ⟨Flt.fin a, Flt.fin b⟩) (htarget : cursor i = s.positions i)
    (h0 : ext.sqrt (Flt.fin 0) = Flt.fin 0) :
    (attractLoop ext cursor n s).velocities i = ⟨Flt.nan, Flt.nan⟩ := by
  rw [attractLoop_velocity ext cursor n s i hi, if_pos hact, htarget, hpos]
  exact attract_at_target ext a b _ h0

/-! ### Frames without emission -/

theorem Flt.fin_sub (a b : ℚ) : Flt.fin a - Flt.fin b = Flt.fin (a - b) := rfl

theorem Flt.le_fin (a b : ℚ) : Flt.le (Flt.fin a) (Flt.fin b) = decide (a ≤ b) := rfl

theorem Flt.gt_fin (a b : ℚ) : Flt.gt (Flt.fin a) (Flt.fin b) = decide (b < a) := rfl

theorem roundF32_samples :
    roundF32 (1 / 3) = Flt.fin (11184811 / 33554432)
      ∧ roundF32 (1 / 60) = Flt.fin (8947849 / 536870912)
      ∧ roundF32 (-(1 / 10)) = Flt.fin (-(13421773 / 134217728))
      ∧ roundF32 16777217 = Flt.fin 16777216
      ∧ roundF32 16777219 = Flt.fin 16777220
      ∧ roundF32 (pow2 (-149) / 2) = Flt.fin 0
      ∧ roundF32 (pow2 128) = Flt.nan := by
  refine ⟨by decide!, by decide!, by decide!, by decide!, by decide!, by decide!, by decide!⟩

theorem lifetimeUpdate_exact (cfg : Config) (l d : ℚ)
    (hlife : Flt.gt cfg.lifetime Flt.zero = true)
    (hexact : roundF32 (l - d) = Flt.fin (l - d)) :
    lifetimeUpdate cfg (Flt.fin d) ⟨true, Flt.fin l⟩
      = ⟨!decide (l - d ≤ 0), Flt.fin (l - d)⟩ := by
  unfold lifetimeUpdate
  rw [if_pos rfl, if_pos hlife]
  simp only [subF32, hexact, Flt.zero, Flt.le_fin]
  by_cases h : l - d ≤ 0
  · simp [h]
  · simp [h]

theorem lifetimeUpdate_refines (cfg : Config) (ext : Ext) (height : Int) (s : State) (i : Nat)
    (l d : ℚ) (hi : i < cfg.pool_size) (hl : s.lifetimes i = Flt.fin l)
    (hexact : roundF32 (l - d) = Flt.fin (l - d)) :
    lifetimeUpdate cfg (Flt.fin d) ⟨s.active_states i, s.lifetimes i⟩
      = ⟨(updateFill cfg ext height (Flt.fin d) s).active_states i,
          (updateFill cfg ext height (Flt.fin d) s).lifetimes i⟩ := by
  rw [updateFill_active _ _ _ _ _ i hi, updateFill_lifetime _ _ _ _ _ i hi, hl]
  unfold survives
  rw [hl, Flt.fin_sub]
  by_cases ha : s.active_states i = true
  · by_cases hg : Flt.gt cfg.lifetime Flt.zero = true
    · rw [ha, lifetimeUpdate_exact cfg l d hg hexact, hg]
      simp [Flt.zero, Flt.le_fin]
    · simp [lifetimeUpdate, ha, hg]
  · simp [lifetimeUpdate, ha]

theorem emitParticle_indices (cfg : Config) (ext : Ext) (m p : Vec2) (s : State) :
    (emitParticle cfg ext m p s).indices = s.indices := by
  unfold emitParticle; rfl

theorem emitN_indices (cfg : Config) (ext : Ext) (inp : Nat → Vec2 × Vec2) (n : Nat)
    (s : State) : (emitN cfg ext inp n s).indices = s.indices := by
  induction n with
  | zero => rfl
  | succ n ih =>
    rw [emitN, emitParticle_indices]
    exact ih

/-- C3 at the pool of three slots after two emissions. -/
theorem buffer_size_counts_active_witness :
    smallSettings.pool_size < 2 ^ 32
      ∧ (updateFill smallSettings sampleExt 600 (Flt.fin (1 / 2)) twoEmitted).buffer_size
          = activeCount smallSettings
              (updateFill smallSettings sampleExt 600 (Flt.fin (1 / 2)) twoEmitted) :=
  ⟨by decide,
    (buffer_size_counts_active smallSettings sampleExt 600 (Flt.fin (1 / 2)) twoEmitted
      (by decide)).1⟩

/-- C4 at the pool of three slots after two emissions, for the second quad. -/
theorem drawn_range_dense_witness :
    6 * smallSettings.pool_size ≤ 2 ^ 31
      ∧ twoEmitted.indices = (init smallSettings).indices
      ∧ 1 < (updateFill smallSettings sampleExt 600 (Flt.fin (1 / 2)) twoEmitted).buffer_size
      ∧ (updateFill smallSettings sampleExt 600 (Flt.fin (1 / 2)) twoEmitted).indices (6 * 1 + 5)
          = 4 * 1 + 3 :=
  ⟨by decide, emitN_indices _ _ _ _ _, by decide!,
    (drawn_range_dense smallSettings sampleExt 600 (Flt.fin (1 / 2)) twoEmitted (by decide)
      (emitN_indices _ _ _ _ _) 1 (by decide!)).2.2.2.2.2.2.1⟩

/-! ### Frame deltas that are not positive -/

theorem Flt.fin_add (a b : ℚ) : Flt.fin a + Flt.fin b = Flt.fin (a + b) := rfl

theorem Flt.fin_mul (a b : ℚ) : Flt.fin a * Flt.fin b = Flt.fin (a * b) := rfl

theorem Flt.fin_neg (a : ℚ) : -Flt.fin a = Flt.fin (-a) := rfl

theorem Flt.fin_div (a b : ℚ) (h : b ≠ 0) : Flt.fin a / Flt.fin b = Flt.fin (a / b) := by
  show Flt.div (Flt.fin a) (Flt.fin b) = _
  simp [Flt.div, h]

theorem Vec2.add_muls_fin (px py vx vy d : ℚ) :
    (⟨Flt.fin px, Flt.fin py⟩ : Vec2) + Vec2.muls ⟨Flt.fin vx, Flt.fin vy⟩ (Flt.fin d)
      = ⟨Flt.fin (px + vx * d), Flt.fin (py + vy * d)⟩ := rfl

theorem length_self_zero (ext : Ext) (a b : ℚ) (h0 : ext.sqrt (Flt.fin 0) = Flt.fin 0) :
    length ext ((⟨Flt.fin a, Flt.fin b⟩ : Vec2) - ⟨Flt.fin a, Flt.fin b⟩) = Flt.fin 0 := by
  have : Vec2.dot ((⟨Flt.fin a, Flt.fin b⟩ : Vec2) - ⟨Flt.fin a, Flt.fin b⟩)
      ((⟨Flt.fin a, Flt.fin b⟩ : Vec2) - ⟨Flt.fin a, Flt.fin b⟩) = Flt.fin 0 := by
    show Flt.fin ((a - a) * (a - a) + (b - b) * (b - b)) = Flt.fin 0
    simp
  unfold length
  rw [this, h0]

/-- C7 as the code has it: the attractor loop has no guard.  For an active slot
whose (finite) position equals the target, the length that divides is `0`, the
division is evaluated all the same, and both components of the velocity become
not-a-number; only inactive slots keep their velocity. -/
theorem attract_at_target_divides_by_zero (cfg : Config) (ext : Ext) (cursor : Nat → Vec2)
    (s : State) (i : Nat) (a b : ℚ) (hi : i < cfg.pool_size)
    (hact : s.active_states i = true) (hpos : s.positions i = ⟨Flt.fin a, Flt.fin b⟩)
    (htarget : cursor i = s.positions i) (h0 : ext.sqrt (Flt.fin 0) = Flt.fin 0) :
    length ext (s.positions i - cursor i) = Flt.fin 0
      ∧ (attractLoop ext cursor cfg.pool_size s).velocities i = ⟨Flt.nan, Flt.nan⟩
      ∧ ∀ j, j < cfg.pool_size → s.active_states j = false →
          (attractLoop ext cursor cfg.pool_size s).velocities j = s.velocities j := by
  refine ⟨?_, attractLoop_at_target ext cursor _ s i a b hi hact hpos htarget h0, ?_⟩
  · rw [htarget, hpos]; exact length_self_zero ext a b h0
  · intro j hj hja
    rw [attractLoop_velocity ext cursor _ s j hj, hja]
    simp

/-- C7 fails: slot `2` is active at the origin, the target is the origin, and
the attractor loop changes its velocity from `(252, 336)` to not-a-number. -/
theorem attract_at_target_changes_velocity :
    twoEmitted.active_states 2 = true
      ∧ twoEmitted.positions 2 = (⟨Flt.zero, Flt.zero⟩ : Vec2)
      ∧ twoEmitted.velocities 2 = ⟨Flt.fin 252, Flt.fin 336⟩
      ∧ (attractLoop sampleExt (fun _ => ⟨Flt.zero, Flt.zero⟩) smallSettings.pool_size
          twoEmitted).velocities 2 = ⟨Flt.nan, Flt.nan⟩
      ∧ (attractLoop sampleExt (fun _ => ⟨Flt.zero, Flt.zero⟩) smallSettings.pool_size
          twoEmitted).velocities 2 ≠ twoEmitted.velocities 2 := by
  refine ⟨by decide, by decide!, by decide!, by decide!, by decide!⟩

/-- C7, amended, at slot `2` of the pool of three slots after two emissions. -/
theorem attract_at_target_divides_by_zero_witness :
    2 < smallSettings.pool_size
      ∧ twoEmitted.active_states 2 = true
      ∧ twoEmitted.positions 2 = ⟨Flt.fin 0, Flt.fin 0⟩
      ∧ (fun _ : Nat => twoEmitted.positions 2) 2 = twoEmitted.positions 2
      ∧ sampleExt.sqrt (Flt.fin 0) = Flt.fin 0
      ∧ (attractLoop sampleExt (fun _ => twoEmitted.positions 2) smallSettings.pool_size
          twoEmitted).velocities 2 = ⟨Flt.nan, Flt.nan⟩ :=
  ⟨by decide, by decide, by decide!, rfl, by decide!,
    (attract_at_target_divides_by_zero smallSettings sampleExt (fun _ => twoEmitted.positions 2)
      twoEmitted 2 0 0 (by decide) (by decide) (by decide!) rfl (by decide!)).2.1⟩

/-! ### The normalized age -/

theorem idle_frames_one (dt : Flt) (s : State) (p : Vec2) :
    (frames smallSettings sampleExt (fun _ => idleFrame dt) 1 ⟨s, p⟩).pool
      = updateFill smallSettings sampleExt 600 dt s := rfl

theorem randf_range (ext : Ext) (k : Nat) (hR : 0 < ext.RAND_MAX)
    (hrand : ext.rand k ≤ ext.RAND_MAX) :
    ∃ r : ℚ, randf ext k = Flt.fin r ∧ 0 ≤ r ∧ r ≤ 1 := by
  have hpos : (0 : ℚ) < (ext.RAND_MAX : ℚ) := by exact_mod_cast hR
  refine ⟨(ext.rand k : ℚ) / (ext.RAND_MAX : ℚ), ?_, ?_, ?_⟩
  · unfold randf Flt.ofNat
    exact Flt.fin_div _ _ (ne_of_gt hpos)
  · exact div_nonneg (by exact_mod_cast Nat.zero_le _) (le_of_lt hpos)
  · rw [div_le_one hpos]
    exact_mod_cast hrand

/-- C9: in the update-and-fill pass with bounce enabled, a slot that survives
the lifetime update and has finite position and velocity is moved to
`position + velocity * dt`; with `v = velocity.y + gravity * dt`, when the new
`position.y` is above `height` the new velocity is
`(velocity.x * friction, -damping * r * v)` for the value `r` in `[0, 1]` that
`randf` returns, so `velocity.y` has its sign flipped and a magnitude of at most
`damping * |v|`; when the new `position.y` is at most `height` the velocity is
`(velocity.x, v)`. -/
theorem bounce_reflects (cfg : Config) (ext : Ext) (height : Int) (s : State) (i : Nat)
    (px py vx vy d g D fr : ℚ) (hi : i < cfg.pool_size) (hbounce : cfg.bounce = true)
    (hsurv : (updateFill cfg ext height (Flt.fin d) s).active_states i = true)
    (hp : s.positions i = ⟨Flt.fin px, Flt.fin py⟩)
    (hv : s.velocities i = ⟨Flt.fin vx, Flt.fin vy⟩)
    (hg : cfg.gravity = Flt.fin g) (hD : cfg.bounce_damping = Flt.fin D) (hD0 : 0 ≤ D)
    (hfr : cfg.friction = Flt.fin fr) (hR : 0 < ext.RAND_MAX)
    (hrand : ∀ k, ext.rand k ≤ ext.RAND_MAX) :
    ∃ r : ℚ, 0 ≤ r ∧ r ≤ 1
      ∧ randf ext (beforeSlot cfg ext height (Flt.fin d) s i).st.rand_calls = Flt.fin r
      ∧ (updateFill cfg ext height (Flt.fin d) s).positions i
          = ⟨Flt.fin (px + vx * d), Flt.fin (py + vy * d)⟩
      ∧ ((height : ℚ) < py + vy * d →
          (updateFill cfg ext height (Flt.fin d) s).velocities i
              = ⟨Flt.fin (vx * fr), Flt.fin (-D * r * (vy + g * d))⟩
            ∧ -D * r * (vy + g * d) * (vy + g * d) ≤ 0
            ∧ |(-D * r * (vy + g * d))| ≤ D * |vy + g * d|)
      ∧ (py + vy * d ≤ (height : ℚ) →
          (updateFill cfg ext height (Flt.fin d) s).velocities i
            = ⟨Flt.fin vx, Flt.fin (vy + g * d)⟩) := by
  obtain ⟨r, hr, hr0, hr1⟩ := randf_range ext
    (beforeSlot cfg ext height (Flt.fin d) s i).st.rand_calls hR (hrand _)
  have hs : survives cfg (Flt.fin d) s i = true := by
    rw [← updateFill_active cfg ext height (Flt.fin d) s i hi]; exact hsurv
  have hpos : s.positions i + (s.velocities i).muls (Flt.fin d)
      = ⟨Flt.fin (px + vx * d), Flt.fin (py + vy * d)⟩ := by
    rw [hp, hv, Vec2.add_muls_fin]
  refine ⟨r, hr0, hr1, hr, ?_, ?_, ?_⟩
  · rw [updateFill_position _ _ _ _ _ i hi, if_pos hs, hpos]
  · intro habove
    refine ⟨?_, ?_, ?_⟩
    · rw [updateFill_velocity _ _ _ _ _ i hi, if_pos hs, hpos, hr, hv, hg, hD, hfr, hbounce]
      have hgt : Flt.gt (Flt.fin (py + vy * d)) (Flt.ofInt height) = true := by
        simp [Flt.ofInt, Flt.gt_fin, habove]
      simp only [hgt, Bool.and_self, if_true, Flt.fin_mul, Flt.fin_add, Flt.fin_neg]
      congr 2
      ring
    · have : -D * r * (vy + g * d) * (vy + g * d) = -(D * r * ((vy + g * d) * (vy + g * d))) := by
        ring
      rw [this]
      have h1 : 0 ≤ D * r := mul_nonneg hD0 hr0
      have h2 : 0 ≤ (vy + g * d) * (vy + g * d) := mul_self_nonneg _
      have := mul_nonneg h1 h2
      linarith
    · have h1 : 0 ≤ D * r := mul_nonneg hD0 hr0
      rw [show -D * r * (vy + g * d) = -(D * r) * (vy + g * d) by ring, abs_mul, abs_neg,
        abs_of_nonneg h1]
      apply mul_le_mul_of_nonneg_right _ (abs_nonneg _)
      calc D * r ≤ D * 1 := mul_le_mul_of_nonneg_left hr1 hD0
        _ = D := mul_one D
  · intro hbelow
    rw [updateFill_velocity _ _ _ _ _ i hi, if_pos hs, hpos, hv, hg]
    have hgt : Flt.gt (Flt.fin (py + vy * d)) (Flt.ofInt height) = false := by
      simp [Flt.ofInt, Flt.gt_fin, hbelow]
    simp only [hgt, Bool.false_and, Bool.false_eq_true, if_false, Flt.fin_mul, Flt.fin_add]

theorem sampleExt_rand_le (k : Nat) : sampleExt.rand k ≤ sampleExt.RAND_MAX :=
  Nat.lt_succ_iff.mp (Nat.mod_lt _ (by decide))

/-- C9 at slot `2` of the pool of three slots after one emission, with the floor
at `100`: the particle is moved to `(126, 168)` and reflected. -/
theorem bounce_reflects_witness :
    2 < smallSettings.pool_size ∧ smallSettings.bounce = true
      ∧ (updateFill smallSettings sampleExt 100 (Flt.fin (1 / 2)) oneEmitted).active_states 2
          = true
      ∧ oneEmitted.positions 2 = ⟨Flt.fin 0, Flt.fin 0⟩
      ∧ oneEmitted.velocities 2 = ⟨Flt.fin 252, Flt.fin 336⟩
      ∧ smallSettings.gravity = Flt.fin 2000 ∧ smallSettings.bounce_damping = Flt.fin (3 / 4)
      ∧ (0 : ℚ) ≤ 3 / 4 ∧ smallSettings.friction = Flt.fin (19 / 20)
      ∧ 0 < sampleExt.RAND_MAX
      ∧ (updateFill smallSettings sampleExt 100 (Flt.fin (1 / 2)) oneEmitted).positions 2
          = ⟨Flt.fin (0 + 252 * (1 / 2)), Flt.fin (0 + 336 * (1 / 2))⟩ :=
  ⟨by decide, rfl, by decide!, by decide!, by decide!, rfl, rfl, by norm_num, rfl, by decide,
    (bounce_reflects smallSettings sampleExt 100 oneEmitted 2 0 0 252 336 (1 / 2) 2000 (3 / 4)
      (19 / 20) (by decide) rfl (by decide!) (by decide!) (by decide!) rfl rfl (by norm_num) rfl
      (by decide) sampleExt_rand_le).elim (fun _ h => h.2.2.2.1)⟩

/-! ### The quad -/

theorem Vec4.add_mk (a b c d a2 b2 c2 d2 : Flt) :
    (⟨a, b, c, d⟩ : Vec4) + ⟨a2, b2, c2, d2⟩ = ⟨a + a2, b + b2, c + c2, d + d2⟩ := rfl

theorem rotate_mulVec (ext : Ext) (a : Flt) (c sn x y : ℚ) (hc : ext.cos a = Flt.fin c)
    (hs : ext.sin a = Flt.fin sn) :
    (rotate ext a).mulVec ⟨Flt.fin x, Flt.fin y, Flt.zero, Flt.zero⟩
      = ⟨Flt.fin (c * x - sn * y), Flt.fin (sn * x + c * y), Flt.fin 0, Flt.fin 0⟩ := by
  simp only [rotate, hc, hs, Mat4.mulVec, Vec4.muls, Flt.zero, Flt.one, Vec4.add_mk,
    Flt.fin_add, Flt.fin_mul, Flt.fin_sub, Vec4.mk.injEq, Flt.fin.injEq]
  refine ⟨by ring, by ring, by ring, by ring⟩

theorem quadVertex_pos (cfg : Config) (ext : Ext) (s : State) (i j : Nat)
    (l B e b ρ β px py c sn : ℚ) (hl : s.lifetimes i = Flt.fin l)
    (hB : cfg.lifetime = Flt.fin B) (hB0 : B ≠ 0) (he : s.end_sizes i = Flt.fin e)
    (hb : s.begin_sizes i = Flt.fin b) (hρ : s.rotations i = Flt.fin ρ)
    (hβ : s.begin_rotations i = Flt.fin β) (hp : s.positions i = ⟨Flt.fin px, Flt.fin py⟩)
    (hc : ext.cos (Flt.fin (ρ * (l / B) + β)) = Flt.fin c)
    (hs : ext.sin (Flt.fin (ρ * (l / B) + β)) = Flt.fin sn) (x y : ℚ)
    (hoff : cornerOffset (Flt.fin (e + l / B * (b - e))) j
      = ⟨Flt.fin x, Flt.fin y, Flt.zero, Flt.zero⟩) :
    (quadVertex cfg ext s i j).pos
      = ⟨Flt.fin (px + (c * x - sn * y)), Flt.fin (py + (sn * x + c * y)), Flt.fin 0,
          Flt.fin 0⟩ := by
  have ht : fillT cfg s i = Flt.fin (l / B) := by
    unfold fillT; rw [hl, hB, Flt.fin_div _ _ hB0]
  have hsize : fillSize cfg s i = Flt.fin (e + l / B * (b - e)) := by
    unfold fillSize; rw [ht, he, hb]; rfl
  have hrot : fillRotation cfg s i = Flt.fin (ρ * (l / B) + β) := by
    unfold fillRotation; rw [ht, hρ, hβ]; rfl
  unfold quadVertex
  simp only [hsize, hrot, hoff, hp, rotate_mulVec ext _ c sn x y hc hs]
  simp only [Vec4.add_mk, Flt.zero, Flt.fin_add, Vec4.mk.injEq, Flt.fin.injEq]
  simp


/-- C10 as the code has it: the corner offsets are `(±size, ±size)`, so the quad
is a square of side `2 * size`.  For a slot with finite fields and a library
cosine `c` and sine `sn` of the angle with `c * c + sn * sn = 1`: the size is
`end_size + t * (begin_size - end_size)` with `t = lifetimes / lifetime`, all
four vertices carry the colour `color_end + t * (color_begin - color_end)`, the
corners are `position + R (±size, ±size)` for the rotation `R` by the angle,
the four sides have squared length `(2 * size)^2`, the two diagonals have
squared length `2 * (2 * size)^2`, and both diagonals have the position as
midpoint. -/
theorem quad_side_is_twice_size (cfg : Config) (ext : Ext) (s : State) (i : Nat)
    (l B e b ρ β px py c sn : ℚ) (hl : s.lifetimes i = Flt.fin l)
    (hB : cfg.lifetime = Flt.fin B) (hB0 : B ≠ 0) (he : s.end_sizes i = Flt.fin e)
    (hb : s.begin_sizes i = Flt.fin b) (hρ : s.rotations i = Flt.fin ρ)
    (hβ : s.begin_rotations i = Flt.fin β) (hp : s.positions i = ⟨Flt.fin px, Flt.fin py⟩)
    (hc : ext.cos (Flt.fin (ρ * (l / B) + β)) = Flt.fin c)
    (hs : ext.sin (Flt.fin (ρ * (l / B) + β)) = Flt.fin sn) (hunit : c * c + sn * sn = 1) :
    ∃ z : ℚ, z = e + l / B * (b - e)
      ∧ fillSize cfg s i = Flt.fin z
      ∧ (∀ j, (quadVertex cfg ext s i j).color
          = cfg.color_end + Vec4.smul (Flt.fin (l / B)) (cfg.color_begin - cfg.color_end))
      ∧ (quadVertex cfg ext s i 0).pos
          = ⟨Flt.fin (px + (c * (-z) - sn * (-z))), Flt.fin (py + (sn * (-z) + c * (-z))),
              Flt.fin 0, Flt.fin 0⟩
      ∧ (quadVertex cfg ext s i 1).pos
          = ⟨Flt.fin (px + (c * z - sn * (-z))), Flt.fin (py + (sn * z + c * (-z))),
              Flt.fin 0, Flt.fin 0⟩
      ∧ (quadVertex cfg ext s i 2).pos
          = ⟨Flt.fin (px + (c * (-z) - sn * z)), Flt.fin (py + (sn * (-z) + c * z)),
              Flt.fin 0, Flt.fin 0⟩
      ∧ (quadVertex cfg ext s i 3).pos
          = ⟨Flt.fin (px + (c * z - sn * z)), Flt.fin (py + (sn * z + c * z)),
              Flt.fin 0, Flt.fin 0⟩
      ∧ sqDist (quadVertex cfg ext s i 0).pos (quadVertex cfg ext s i 1).pos
          = Flt.fin ((2 * z) * (2 * z))
      ∧ sqDist (quadVertex cfg ext s i 1).pos (quadVertex cfg ext s i 3).pos
          = Flt.fin ((2 * z) * (2 * z))
      ∧ sqDist (quadVertex cfg ext s i 3).pos (quadVertex cfg ext s i 2).pos
          = Flt.fin ((2 * z) * (2 * z))
      ∧ sqDist (quadVertex cfg ext s i 2).pos (quadVertex cfg ext s i 0).pos
          = Flt.fin ((2 * z) * (2 * z))
      ∧ sqDist (quadVertex cfg ext s i 0).pos (quadVertex cfg ext s i 3).pos
          = Flt.fin (2 * ((2 * z) * (2 * z)))
      ∧ sqDist (quadVertex cfg ext s i 1).pos (quadVertex cfg ext s i 2).pos
          = Flt.fin (2 * ((2 * z) * (2 * z)))
      ∧ (quadVertex cfg ext s i 0).pos.x + (quadVertex cfg ext s i 3).pos.x = Flt.fin (2 * px)
      ∧ (quadVertex cfg ext s i 0).pos.y + (quadVertex cfg ext s i 3).pos.y = Flt.fin (2 * py)
      ∧ (quadVertex cfg ext s i 1).pos.x + (quadVertex cfg ext s i 2).pos.x = Flt.fin (2 * px)
      ∧ (quadVertex cfg ext s i 1).pos.y + (quadVertex cfg ext s i 2).pos.y
          = Flt.fin (2 * py) := by
  have ht : fillT cfg s i = Flt.fin (l / B) := by
    unfold fillT; rw [hl, hB, Flt.fin_div _ _ hB0]
  have hsize : fillSize cfg s i = Flt.fin (e + l / B * (b - e)) := by
    unfold fillSize; rw [ht, he, hb]; rfl
  have h0 := quadVertex_pos cfg ext s i 0 l B e b ρ β px py c sn hl hB hB0 he hb hρ hβ hp hc hs
    (-(e + l / B * (b - e))) (-(e + l / B * (b - e))) rfl
  have h1 := quadVertex_pos cfg ext s i 1 l B e b ρ β px py c sn hl hB hB0 he hb hρ hβ hp hc hs
    (e + l / B * (b - e)) (-(e + l / B * (b - e))) rfl
  have h2 := quadVertex_pos cfg ext s i 2 l B e b ρ β px py c sn hl hB hB0 he hb hρ hβ hp hc hs
    (-(e + l / B * (b - e))) (e + l / B * (b - e)) rfl
  have h3 := quadVertex_pos cfg ext s i 3 l B e b ρ β px py c sn hl hB hB0 he hb hρ hβ hp hc hs
    (e + l / B * (b - e)) (e + l / B * (b - e)) rfl
  refine ⟨e + l / B * (b - e), rfl, hsize, ?_, h0, h1, h2, h3, ?_, ?_, ?_, ?_, ?_, ?_,
    ?_, ?_, ?_, ?_⟩
  · intro j
    unfold quadVertex fillColor
    rw [ht]
  all_goals
    simp only [h0, h1, h2, h3, sqDist, Flt.fin_add, Flt.fin_mul, Flt.fin_sub, Flt.fin.injEq]
  · linear_combination (4 * (e + l / B * (b - e)) ^ 2) * hunit
  · linear_combination (4 * (e + l / B * (b - e)) ^ 2) * hunit
  · linear_combination (4 * (e + l / B * (b - e)) ^ 2) * hunit
  · linear_combination (4 * (e + l / B * (b - e)) ^ 2) * hunit
  · linear_combination (8 * (e + l / B * (b - e)) ^ 2) * hunit
  · linear_combination (8 * (e + l / B * (b - e)) ^ 2) * hunit
  · ring
  · ring
  · ring
  · ring


/-- C10 fails: the quad drawn for slot `2` has size `135 / 4` and the squared
distance of its first two corners is `(2 * 135 / 4)^2 = 18225 / 4`, not
`(135 / 4)^2 = 18225 / 16`. -/
theorem quad_side_is_not_size :
    oneDrawn.buffer_size = 1
      ∧ oneDrawn.active_states 2 = true
      ∧ fillSize smallSettings oneDrawn 2 = Flt.fin (135 / 4)
      ∧ (oneDrawn.vertices 0) = quadVertex smallSettings sampleExt oneDrawn 2 0
      ∧ (oneDrawn.vertices 1) = quadVertex smallSettings sampleExt oneDrawn 2 1
      ∧ sqDist (oneDrawn.vertices 0).pos (oneDrawn.vertices 1).pos = Flt.fin (18225 / 4)
      ∧ sqDist (oneDrawn.vertices 0).pos (oneDrawn.vertices 1).pos
          ≠ Flt.fin (135 / 4 * (135 / 4)) := by
  refine ⟨by decide!, by decide!, by decide!, by decide!, by decide!, by decide!, by decide!⟩

/-- C10, amended, at slot `2` of the pool of three slots after one emission and
one pass. -/
theorem quad_side_is_twice_size_witness :
    oneDrawn.lifetimes 2 = Flt.fin (3 / 2) ∧ smallSettings.lifetime = Flt.fin 1
      ∧ (1 : ℚ) ≠ 0
      ∧ oneDrawn.end_sizes 2 = Flt.fin (9 / 2) ∧ oneDrawn.begin_sizes 2 = Flt.fin 24
      ∧ oneDrawn.rotations 2 = Flt.fin 0 ∧ oneDrawn.begin_rotations 2 = Flt.fin (7 / 5)
      ∧ oneDrawn.positions 2 = ⟨Flt.fin 126, Flt.fin 168⟩
      ∧ sampleExt.cos (Flt.fin (0 * (3 / 2 / 1) + 7 / 5)) = Flt.fin (51 / 149)
      ∧ sampleExt.sin (Flt.fin (0 * (3 / 2 / 1) + 7 / 5)) = Flt.fin (140 / 149)
      ∧ (51 / 149 : ℚ) * (51 / 149) + (140 / 149) * (140 / 149) = 1
      ∧ ∃ z : ℚ, z = 9 / 2 + 3 / 2 / 1 * (24 - 9 / 2)
          ∧ sqDist (quadVertex smallSettings sampleExt oneDrawn 2 0).pos
              (quadVertex smallSettings sampleExt oneDrawn 2 1).pos
            = Flt.fin ((2 * z) * (2 * z)) :=
  ⟨by decide!, rfl, by norm_num, by decide!, by decide!, by decide!, by decide!, by decide!,
    by decide!, by decide!, by norm_num,
    (quad_side_is_twice_size smallSettings sampleExt oneDrawn 2 (3 / 2) 1 (9 / 2) 24 0 (7 / 5)
      126 168 (51 / 149) (140 / 149) (by decide!) rfl (by norm_num) (by decide!) (by decide!)
      (by decide!) (by decide!) (by decide!) (by decide!) (by decide!) (by norm_num)).elim
      (fun z h => ⟨z, h.1, h.2.2.2.2.2.2.2.1⟩)⟩

end ParticleSystem
